import Mathlib

/-!
Verification of the idea-lifecycle core of the Research_Agent_with_MCP-Ollama
repository: a shallow embedding in Lean 4 of `utils/parser.py`,
`core/types.py`, `agents/critic.py`, `agents/refiner.py` and the
`research_loop` of `main.py`, together with theorems settling the frozen
claims about the natural-language specification.

Modelling conventions:
* Python's dynamically-typed JSON-shaped values are the inductive `Json`;
  Python `None` and JSON `null` are both `Json.null` (they are the same
  object in Python).
* `json.loads` is modelled by `json_loads`, an executable recursive-descent
  reader of the JSON grammar (numbers are kept as exact rationals; CPython
  would convert to binary floats, a distinction none of the claims touch).
* A raised-and-uncaught Python exception is modelled by `Except.error`;
  functions that cannot raise are plain total functions.
* Calls to the LLM backend (`BaseAgent.generate`) are abstracted as oracle
  functions from the current idea to the returned text, matching the spec's
  `AgentInterface` external-collaborator boundary.
-/

/-- A Python value produced by `json.loads` (dict/list/str/num/bool/None). -/
inductive Json where
  | null : Json
  | bool (b : Bool) : Json
  | num (q : ℚ) : Json
  | str (s : String) : Json
  | arr (elems : List Json) : Json
  | obj (members : List (String × Json)) : Json

/-- The `\x7b` character (written this way to keep brace characters out of
character-literal position). -/
def obrace : Char := Char.ofNat 123

/-- The `\x7d` character. -/
def cbrace : Char := Char.ofNat 125

/-- The backquote character. -/
def btick : Char := Char.ofNat 96

/-- The apostrophe character. -/
def squote : Char := Char.ofNat 39

/-- JSON inter-token whitespace (space, tab, newline, carriage return). -/
def jsonWsChar (c : Char) : Bool :=
  c = ' ' || c = '\t' || c = '\n' || c = '\r'

/-- Python `str.isspace`-style whitespace as matched by `\s` in the regexes
of the source and by `str.strip()` (restricted to the ASCII range actually
exercised by the program). -/
def pyWsChar (c : Char) : Bool :=
  c = ' ' || c = '\t' || c = '\n' || c = '\r' || c = Char.ofNat 11 || c = Char.ofNat 12

def skipJsonWs (cs : List Char) : List Char := cs.dropWhile jsonWsChar

/-- Python `str.strip()`. -/
def pyStrip (s : String) : String :=
  String.mk (((s.data.dropWhile pyWsChar).reverse.dropWhile pyWsChar).reverse)

/-- Value of a hexadecimal digit. -/
def hexVal (c : Char) : Option Nat :=
  if '0' ≤ c ∧ c ≤ '9' then some (c.toNat - '0'.toNat)
  else if 'a' ≤ c ∧ c ≤ 'f' then some (c.toNat - 'a'.toNat + 10)
  else if 'A' ≤ c ∧ c ≤ 'F' then some (c.toNat - 'A'.toNat + 10)
  else none

/-- Body of a JSON string literal (after the opening quote): returns the
decoded characters and the input following the closing quote. -/
def pStrAux : Nat → List Char → Except String (List Char × List Char)
  | 0, _ => .error "fuel exhausted"
  | Nat.succ fuel, cs =>
    match cs with
    | [] => .error "Unterminated string"
    | c :: rest =>
      if c = '"' then .ok ([], rest)
      else if c = '\\' then
        match rest with
        | [] => .error "Unterminated string"
        | e :: rest2 =>
          let esc : Option Char :=
            if e = '"' then some '"'
            else if e = '\\' then some '\\'
            else if e = '/' then some '/'
            else if e = 'b' then some (Char.ofNat 8)
            else if e = 'f' then some (Char.ofNat 12)
            else if e = 'n' then some '\n'
            else if e = 'r' then some '\r'
            else if e = 't' then some '\t'
            else none
          match esc with
          | some ch =>
            match pStrAux fuel rest2 with
            | .ok (s, r) => .ok (ch :: s, r)
            | .error msg => .error msg
          | none =>
            if e = 'u' then
              match rest2 with
              | h1 :: h2 :: h3 :: h4 :: rest3 =>
                match hexVal h1, hexVal h2, hexVal h3, hexVal h4 with
                | some a, some b, some c3, some d =>
                  match pStrAux fuel rest3 with
                  | .ok (s, r) => .ok (Char.ofNat (a * 4096 + b * 256 + c3 * 16 + d) :: s, r)
                  | .error msg => .error msg
                | _, _, _, _ => .error "Invalid uXXXX escape"
              | _ => .error "Invalid uXXXX escape"
            else .error "Invalid escape"
      else if c.toNat < 32 then .error "Invalid control character"
      else
        match pStrAux fuel rest with
        | .ok (s, r) => .ok (c :: s, r)
        | .error msg => .error msg

/-- Natural number denoted by a digit list (most significant first). -/
def natOfDigits (ds : List Char) : Nat :=
  ds.foldl (fun acc c => acc * 10 + (c.toNat - '0'.toNat)) 0

/-- A JSON number (sign, integer part with no leading zero, optional
fraction, optional exponent), kept as an exact rational.  The value is
assembled with `mkRat` over integer arithmetic so that concrete parses
reduce definitionally. -/
def pNum (cs : List Char) : Except String (Json × List Char) :=
  let (neg, cs1) : Bool × List Char :=
    match cs with
    | '-' :: rest => (true, rest)
    | _ => (false, cs)
  let intDigits := cs1.takeWhile Char.isDigit
  let cs2 := cs1.drop intDigits.length
  if intDigits = [] then .error "Expecting value"
  else if 1 < intDigits.length ∧ intDigits.headD '0' = '0' then .error "Expecting value"
  else
    let (fracDigits, cs3) : List Char × List Char :=
      match cs2 with
      | '.' :: rest => (rest.takeWhile Char.isDigit, rest.drop (rest.takeWhile Char.isDigit).length)
      | _ => ([], cs2)
    if cs2 ≠ cs3 ∧ fracDigits = [] then .error "Expecting digits after decimal point"
    else
      let hasExp : Bool := match cs3 with
        | 'e' :: _ => true
        | 'E' :: _ => true
        | _ => false
      let expTail := if hasExp then cs3.drop 1 else cs3
      let (expNeg, expTail2) : Bool × List Char :=
        if hasExp then
          match expTail with
          | '+' :: rest => (false, rest)
          | '-' :: rest => (true, rest)
          | _ => (false, expTail)
        else (false, expTail)
      let expDigits := if hasExp then expTail2.takeWhile Char.isDigit else []
      let cs4 := if hasExp then expTail2.drop expDigits.length else cs3
      if hasExp ∧ expDigits = [] then .error "Expecting digits in exponent"
      else
        let mantNum : Nat := natOfDigits intDigits * 10 ^ fracDigits.length + natOfDigits fracDigits
        let e : Nat := natOfDigits expDigits
        let num : Int :=
          (if neg then -(mantNum : Int) else (mantNum : Int)) *
            (if expNeg then 1 else (10 : Int) ^ e)
        let den : Nat := 10 ^ fracDigits.length * (if expNeg then 10 ^ e else 1)
        .ok (Json.num (mkRat num den), cs4)

/-- Literal keyword helper: expects `pat` as an exact leading segment. -/
def expectLit (pat : List Char) (v : Json) (cs : List Char) : Except String (Json × List Char) :=
  if pat.isPrefixOf cs then .ok (v, cs.drop pat.length) else .error "Expecting value"

mutual
/-- One JSON value, as read by `json.loads` (model). -/
def pVal : Nat → List Char → Except String (Json × List Char)
  | 0, _ => .error "fuel exhausted"
  | Nat.succ fuel, cs0 =>
    let cs := skipJsonWs cs0
    match cs with
    | [] => .error "Expecting value"
    | c :: rest =>
      if c = '"' then
        match pStrAux (rest.length + 1) rest with
        | .ok (s, r) => .ok (Json.str (String.mk s), r)
        | .error msg => .error msg
      else if c = obrace then
        let r1 := skipJsonWs rest
        match r1 with
        | [] => .error "Expecting property name"
        | d :: r2 => if d = cbrace then .ok (Json.obj [], r2) else pMembers fuel r1
      else if c = '[' then
        let r1 := skipJsonWs rest
        match r1 with
        | [] => .error "Expecting value"
        | d :: r2 => if d = ']' then .ok (Json.arr [], r2) else pElems fuel r1
      else if c = 't' then expectLit ['t', 'r', 'u', 'e'] (Json.bool true) cs
      else if c = 'f' then expectLit ['f', 'a', 'l', 's', 'e'] (Json.bool false) cs
      else if c = 'n' then expectLit ['n', 'u', 'l', 'l'] Json.null cs
      else pNum cs

/-- Comma-separated array elements up to the closing bracket. -/
def pElems : Nat → List Char → Except String (Json × List Char)
  | 0, _ => .error "fuel exhausted"
  | Nat.succ fuel, cs =>
    match pVal fuel cs with
    | .error msg => .error msg
    | .ok (v, r) =>
      let r1 := skipJsonWs r
      match r1 with
      | ']' :: r2 => .ok (Json.arr [v], r2)
      | ',' :: r2 =>
        match pElems fuel r2 with
        | .ok (Json.arr vs, r3) => .ok (Json.arr (v :: vs), r3)
        | .ok _ => .error "malformed"
        | .error msg => .error msg
      | _ => .error "Expecting comma delimiter"

/-- Comma-separated object members up to the closing brace. -/
def pMembers : Nat → List Char → Except String (Json × List Char)
  | 0, _ => .error "fuel exhausted"
  | Nat.succ fuel, cs =>
    match cs with
    | '"' :: rest =>
      match pStrAux (rest.length + 1) rest with
      | .error msg => .error msg
      | .ok (k, r) =>
        match skipJsonWs r with
        | ':' :: r2 =>
          match pVal fuel r2 with
          | .error msg => .error msg
          | .ok (v, r3) =>
            let r4 := skipJsonWs r3
            match r4 with
            | c :: r5 =>
              if c = cbrace then .ok (Json.obj [(String.mk k, v)], r5)
              else if c = ',' then
                match pMembers fuel (skipJsonWs r5) with
                | .ok (Json.obj ms, r6) => .ok (Json.obj ((String.mk k, v) :: ms), r6)
                | .ok _ => .error "malformed"
                | .error msg => .error msg
              else .error "Expecting comma delimiter"
            | [] => .error "Expecting comma delimiter"
        | _ => .error "Expecting colon delimiter"
    | _ => .error "Expecting property name"
end

/-- Model of Python `json.loads`: parse exactly one JSON document (value
surrounded by whitespace); anything else raises `JSONDecodeError`, modelled
as `Except.error`. -/
def json_loads (s : String) : Except String Json :=
  let cs := s.data
  match pVal (2 * cs.length + 4) cs with
  | .error msg => .error msg
  | .ok (v, rest) =>
    if skipJsonWs rest = [] then .ok v else .error "Extra data"

/-- First index at which `pat` occurs as a contiguous segment. -/
def findSub (pat : List Char) : List Char → Option Nat
  | [] => if pat = [] then some 0 else none
  | c :: rest =>
    if pat.isPrefixOf (c :: rest) then some 0
    else (findSub pat rest).map (· + 1)

/-- Python `str.find` restricted to a single character (index of first
occurrence, `none` for `-1`). -/
def charFind (t : Char) : List Char → Option Nat
  | [] => none
  | c :: rest => if c = t then some 0 else (charFind t rest).map (· + 1)

/-- Python `str.rfind` restricted to a single character. -/
def charRfind (t : Char) (cs : List Char) : Option Nat :=
  (charFind t cs.reverse).map (fun i => cs.length - 1 - i)

/-- The fenced-code-block search of `extract_json`, step 1: the Python
regex search for three backquotes, an optional `json` tag, optional
whitespace, then the lazily-matched group up to the next three backquotes
(`re.DOTALL`).  Returns the text of capture group 1 when the regex
matches. -/
def findFenced (s : String) : Option String :=
  let cs := s.data
  let fence := [btick, btick, btick]
  match findSub fence cs with
  | none => none
  | some i =>
    let r0 := cs.drop (i + 3)
    let r1 := if ['j', 's', 'o', 'n'].isPrefixOf r0 then r0.drop 4 else r0
    let r2 := r1.dropWhile pyWsChar
    match findSub fence r2 with
    | none => none
    | some k => some (String.mk (r2.take k))

/-- The `try` body of `extract_json` in `utils/parser.py`: step 1 (fenced
block), step 2 (first-bracket/last-bracket slice), step 3 (whole text); a
`JSONDecodeError` raised by any `json.loads` call propagates out of the
body (to the `except` clause of `extract_json`). -/
def extract_json_body (text : String) : Except String Json :=
  match findFenced text with
  | some inner => json_loads (pyStrip inner)
  | none =>
    let cs := text.data
    let list_start := charFind '[' cs
    let dict_start := charFind obrace cs
    let sel : Option (Nat × Char) :=
      match list_start, dict_start with
      | some l, some d => if l < d then some (l, ']') else some (d, cbrace)
      | some l, none => some (l, ']')
      | none, some d => some (d, cbrace)
      | none, none => none
    match sel with
    | some (start_idx, end_char) =>
      match charRfind end_char cs with
      | some end_idx =>
        if start_idx < end_idx then
          json_loads (String.mk ((cs.drop start_idx).take (end_idx + 1 - start_idx)))
        else json_loads text
      | none => json_loads text
    | none => json_loads text

/-- `extract_json` of `utils/parser.py`: the body above wrapped in the
`try`/`except` that converts every raised exception into `None`
(`Json.null`). -/
def extract_json (text : String) : Json :=
  match extract_json_body text with
  | .ok v => v
  | .error _ => Json.null

/-! ## Python value helpers shared by the agents -/

/-- Python truthiness of a JSON-shaped value. -/
def jsonTruthy : Json → Bool
  | Json.null => false
  | Json.bool b => b
  | Json.num q => q != 0
  | Json.str s => s != ""
  | Json.arr l => !l.isEmpty
  | Json.obj m => !m.isEmpty

/-- Python `dict.get(k)` on a parsed JSON object: the value of the last
binding of `k` (later duplicate keys overwrite earlier ones in
`json.loads`). -/
def dictFind (d : List (String × Json)) (k : String) : Option Json :=
  (d.reverse.find? (fun p => p.1 == k)).map (·.2)

/-- Python `dict.get(k, default)`. -/
def dget (d : List (String × Json)) (k : String) (dflt : Json) : Json :=
  match dictFind d k with
  | some v => v
  | none => dflt

mutual
/-- Python `str()` of a JSON-shaped value, as it appears inside the
f-strings of the source (containers render `repr`-style). -/
def pyStr : Json → String
  | Json.null => "None"
  | Json.bool b => if b then "True" else "False"
  | Json.num q => if q.den = 1 then toString q.num else toString q.num ++ "/" ++ toString q.den
  | Json.str s => s
  | Json.arr l => "[" ++ pyReprList l ++ "]"
  | Json.obj m => String.singleton obrace ++ pyReprMembers m ++ String.singleton cbrace

/-- Python `repr()` of a JSON-shaped value (strings get quoted). -/
def pyRepr : Json → String
  | Json.str s => String.singleton squote ++ s ++ String.singleton squote
  | Json.null => "None"
  | Json.bool b => if b then "True" else "False"
  | Json.num q => if q.den = 1 then toString q.num else toString q.num ++ "/" ++ toString q.den
  | Json.arr l => "[" ++ pyReprList l ++ "]"
  | Json.obj m => String.singleton obrace ++ pyReprMembers m ++ String.singleton cbrace

def pyReprList : List Json → String
  | [] => ""
  | [x] => pyRepr x
  | x :: y :: rest => pyRepr x ++ ", " ++ pyReprList (y :: rest)

def pyReprMembers : List (String × Json) → String
  | [] => ""
  | [(k, v)] => String.singleton squote ++ k ++ String.singleton squote ++ ": " ++ pyRepr v
  | (k, v) :: m :: rest =>
    String.singleton squote ++ k ++ String.singleton squote ++ ": " ++ pyRepr v ++ ", " ++
      pyReprMembers (m :: rest)
end

/-- Python `int(...)` truncation toward zero of an exact rational. -/
def pyTrunc (q : ℚ) : Int :=
  if q < 0 then -((((-q).num.toNat / (-q).den : Nat) : Int)) else (((q.num.toNat / q.den : Nat) : Int))

/-- Python `int(s)` on a string: optional surrounding whitespace, optional
sign, decimal digits; `none` models a raised `ValueError`.  (Underscore
digit separators, accepted by CPython, are not modelled; no claim input
uses them.) -/
def pyIntOfString (s : String) : Option Int :=
  let cs := ((s.data.dropWhile pyWsChar).reverse.dropWhile pyWsChar).reverse
  let (neg, cs1) : Bool × List Char :=
    match cs with
    | '-' :: rest => (true, rest)
    | '+' :: rest => (false, rest)
    | _ => (false, cs)
  if cs1 ≠ [] ∧ cs1.all Char.isDigit then
    some (if neg then -((natOfDigits cs1 : Int)) else (natOfDigits cs1 : Int))
  else none

/-- Python slicing `x[:n]`, defined exactly on the sliceable JSON shapes
(strings and lists); `none` models a raised `TypeError`. -/
def pySlice (n : Nat) : Json → Option Json
  | Json.str s => some (Json.str (String.mk (s.data.take n)))
  | Json.arr l => some (Json.arr (l.take n))
  | _ => none

/-- The JSON shapes on which `x[:n]` is defined. -/
def isSliceable : Json → Bool
  | Json.str _ => true
  | Json.arr _ => true
  | _ => false

/-- Model of Python `round(x, 2)` on the exact rational carried by the
model: round half up to a multiple of 1/100.  (CPython rounds the nearest
binary double half-to-even; no claim input sits at a tie or at a float
artifact.) -/
def round2 (q : ℚ) : ℚ :=
  mkRat ((200 * q.num + q.den) / (2 * (q.den : Int))) 100

/-! ## Data model (`core/types.py`) -/

/-- `CritiqueMetrics` of `core/types.py`.  Score fields are Python ints;
`feedback_text` is kept JSON-shaped because the source can store a
non-string there (the raw `overall_feedback` value). -/
structure CritiqueMetrics where
  novelty_score : Int
  feasibility_score : Int
  specificity_score : Int
  impact_score : Int
  average_score : ℚ
  feedback_text : Json
  raw_response : Option String := none

/-- The score-averaging computation shared verbatim by
`CritiqueMetrics.compute_average`, `CriticAgent._parse_critique_response`
and `CriticAgent._parse_from_text`: mean of the scores that are `> 0`, or
`0.0` when none are. -/
def scoresAverage (scores : List Int) : ℚ :=
  let valid_scores := scores.filter (fun s => 0 < s)
  if valid_scores = [] then 0
  else mkRat (valid_scores.foldl (· + ·) 0) valid_scores.length

/-- `CritiqueMetrics.compute_average` of `core/types.py`. -/
def CritiqueMetrics.compute_average (m : CritiqueMetrics) : ℚ :=
  scoresAverage [m.novelty_score, m.feasibility_score, m.specificity_score, m.impact_score]

/-- `IdeaContent` of `core/types.py` (fields are dynamically typed in the
source: the refiner can store arbitrary extracted JSON in them). -/
structure IdeaContent where
  title : Json
  methodology : Json
  description : Json := Json.null
  raw_content : Json := Json.null

/-- `RefinementDetails` of `core/types.py`. -/
structure RefinementDetails where
  original_title : Json
  original_methodology : Json
  critique_feedback : Json
  critique_score : ℚ
  refinement_reasoning : Json
  changes_made : Json

/-- `IdeaSnapshot` of `core/types.py` (`content` is `None` in the source
when refinement was invoked on an idea with no latest content). -/
structure IdeaSnapshot where
  iteration : Nat
  role : String
  content : Option IdeaContent
  critique : Option CritiqueMetrics := none
  refinement_details : Option RefinementDetails := none

/-- `IdeaObject` of `core/types.py`. -/
structure IdeaObject where
  idea_id : String
  current_iteration : Nat := 0
  status : String := "active"
  evolution_history : List IdeaSnapshot := []

/-- `IdeaObject.latest_content` (property). -/
def IdeaObject.latest_content (i : IdeaObject) : Option IdeaContent :=
  match i.evolution_history.getLast? with
  | none => none
  | some s => s.content

/-- `IdeaObject.latest_critique` (property). -/
def IdeaObject.latest_critique (i : IdeaObject) : Option CritiqueMetrics :=
  match i.evolution_history.getLast? with
  | none => none
  | some s => s.critique

/-! ## `CriticAgent` (`agents/critic.py`) -/

namespace CriticAgent

/-- `CriticAgent._safe_int`: Python `int(value)` with `ValueError` and
`TypeError` coerced to `0`. -/
def safe_int (v : Json) : Int :=
  match v with
  | Json.num q => pyTrunc q
  | Json.bool b => if b then 1 else 0
  | Json.str s => (pyIntOfString s).getD 0
  | _ => 0

/-- Characters accepted by the `[:\s]+` separator of the score regexes. -/
def sepChar (c : Char) : Bool := c = ':' || pyWsChar c

/-- Anchored match of the pattern `kw[:\s]+(\d)[/\s]?5?` (the trailing
optional pieces never constrain the match): the keyword, at least one
colon/whitespace separator, then a captured digit. -/
def matchPat1At (kw : List Char) (cs : List Char) : Option Nat :=
  if kw.isPrefixOf cs then
    let r := cs.drop kw.length
    let seps := r.takeWhile sepChar
    if seps = [] then none
    else
      match r.drop seps.length with
      | d :: _ => if d.isDigit then some (d.toNat - '0'.toNat) else none
      | [] => none
  else none

/-- Anchored match of the pattern `kw\s+score[:\s]+(\d)`. -/
def matchPat2At (kw : List Char) (cs : List Char) : Option Nat :=
  if kw.isPrefixOf cs then
    let r := cs.drop kw.length
    let sp := r.takeWhile pyWsChar
    if sp = [] then none
    else
      let r2 := r.drop sp.length
      if ['s', 'c', 'o', 'r', 'e'].isPrefixOf r2 then
        let r3 := r2.drop 5
        let seps := r3.takeWhile sepChar
        if seps = [] then none
        else
          match r3.drop seps.length with
          | d :: _ => if d.isDigit then some (d.toNat - '0'.toNat) else none
          | [] => none
      else none
  else none

/-- `re.search`: the match at the leftmost position where the anchored
matcher succeeds. -/
def searchPat (m : List Char → Option Nat) : List Char → Option Nat
  | [] => m []
  | c :: rest =>
    match m (c :: rest) with
    | some d => some d
    | none => searchPat m rest

/-- `CriticAgent._find_score`: scan the lowercased text for each keyword
with the two regex patterns in order; the first match whose digit lies in
`[1,5]` wins; a first match with an out-of-range digit skips that pattern. -/
def find_score_go (lower : List Char) : List String → Int
  | [] => 0
  | kw :: rest =>
    let k := kw.data
    match
      (match searchPat (matchPat1At k) lower with
       | some d => if 1 ≤ d ∧ d ≤ 5 then some d else none
       | none => none) with
    | some d => (d : Int)
    | none =>
      match searchPat (matchPat2At k) lower with
      | some d =>
        if 1 ≤ d ∧ d ≤ 5 then (d : Int) else find_score_go lower rest
      | none => find_score_go lower rest

/-- `CriticAgent._find_score` on the original text. -/
def find_score (text : String) (keywords : List String) : Int :=
  find_score_go (text.data.map Char.toLower) keywords

/-- `CriticAgent._parse_from_text`: fallback critique for non-JSON
responses. -/
def parse_from_text (response : String) : CritiqueMetrics :=
  let novelty := find_score response ["novelty", "novel"]
  let feasibility := find_score response ["feasibility", "feasible"]
  let specificity := find_score response ["specificity", "specific"]
  let impact := find_score response ["impact"]
  { novelty_score := novelty
  , feasibility_score := feasibility
  , specificity_score := specificity
  , impact_score := impact
  , average_score := round2 (scoresAverage [novelty, feasibility, specificity, impact])
  , feedback_text := Json.str (String.mk (response.data.take 2000))
  , raw_response := some response }

/-- The narrative `feedback_parts` assembly of
`CriticAgent._parse_critique_response`. -/
def feedbackParts (data : List (String × Json)) (novelty feasibility specificity impact : Int) :
    List String :=
  (match dictFind data "overall_feedback" with
   | some v => if jsonTruthy v then ["**Overall Assessment:** " ++ pyStr v] else []
   | none => []) ++
  (match dictFind data "novelty_reasoning" with
   | some v =>
     if jsonTruthy v then ["**Novelty (" ++ toString novelty ++ "/5):** " ++ pyStr v] else []
   | none => []) ++
  (match dictFind data "feasibility_reasoning" with
   | some v =>
     if jsonTruthy v then ["**Feasibility (" ++ toString feasibility ++ "/5):** " ++ pyStr v] else []
   | none => []) ++
  (match dictFind data "specificity_reasoning" with
   | some v =>
     if jsonTruthy v then ["**Specificity (" ++ toString specificity ++ "/5):** " ++ pyStr v] else []
   | none => []) ++
  (match dictFind data "impact_reasoning" with
   | some v =>
     if jsonTruthy v then ["**Impact (" ++ toString impact ++ "/5):** " ++ pyStr v] else []
   | none => []) ++
  (match dictFind data "key_weaknesses" with
   | some w =>
     if jsonTruthy w then
       match w with
       | Json.arr l =>
         ["**Key Weaknesses:**\n" ++ String.intercalate "\n" (l.map (fun x => "- " ++ pyStr x))]
       | _ => []
     else []
   | none => []) ++
  (match dictFind data "key_strengths" with
   | some w =>
     if jsonTruthy w then
       match w with
       | Json.arr l =>
         ["**Key Strengths:**\n" ++ String.intercalate "\n" (l.map (fun x => "- " ++ pyStr x))]
       | _ => []
     else []
   | none => [])

/-- The structured branch of `CriticAgent._parse_critique_response`,
applied when `extract_json` yields a dict. -/
def buildFromDict (data : List (String × Json)) (response : String) : CritiqueMetrics :=
  let novelty := safe_int (dget data "novelty_score" (Json.num 0))
  let feasibility := safe_int (dget data "feasibility_score" (Json.num 0))
  let specificity := safe_int (dget data "specificity_score" (Json.num 0))
  let impact := safe_int (dget data "impact_score" (Json.num 0))
  let feedback_parts := feedbackParts data novelty feasibility specificity impact
  let feedback_text : Json :=
    if feedback_parts ≠ [] then Json.str (String.intercalate "\n\n" feedback_parts)
    else dget data "overall_feedback" (Json.str "No detailed feedback provided.")
  { novelty_score := novelty
  , feasibility_score := feasibility
  , specificity_score := specificity
  , impact_score := impact
  , average_score := round2 (scoresAverage [novelty, feasibility, specificity, impact])
  , feedback_text := feedback_text
  , raw_response := some response }

/-- `CriticAgent._parse_critique_response`. -/
def parse_critique_response (response : String) : CritiqueMetrics :=
  match extract_json response with
  | Json.obj data => buildFromDict data response
  | _ => parse_from_text response

/-- `CriticAgent._create_error_critique`. -/
def create_error_critique (error_msg : String) : CritiqueMetrics :=
  { novelty_score := 0
  , feasibility_score := 0
  , specificity_score := 0
  , impact_score := 0
  , average_score := 0
  , feedback_text := Json.str ("Error: " ++ error_msg)
  , raw_response := none }

end CriticAgent

/-! ## `RefinerAgent` (`agents/refiner.py`) -/

namespace RefinerAgent

/-- The body of `RefinerAgent.improve` after the prompt has been sent and
`response` received, given the idea's latest content and critique.  Each
point where CPython would raise a `TypeError` (string concatenation onto a
non-string `changes_summary`; slicing a non-sliceable value) is an
`Except.error`. -/
def improveCore (content : IdeaContent) (critique : CritiqueMetrics) (response : String) :
    Except String (Option IdeaContent × Option RefinementDetails) :=
  match pySlice 50 content.title with
  | none => .error "TypeError: title is not sliceable"
  | some _ =>
    match extract_json response with
    | Json.obj data =>
      let new_content : IdeaContent :=
        { title := dget data "refined_title" content.title
        , methodology := dget data "refined_methodology" content.methodology
        , description := dget data "refined_description" content.description
        , raw_content := Json.str response }
      let changes0 : Json := dget data "changes_summary" (Json.str "")
      let changesE : Except String Json :=
        match dictFind data "addressed_weaknesses" with
        | some w =>
          if jsonTruthy w then
            match w with
            | Json.arr l =>
              let changes_list := l.filterMap (fun x =>
                match x with
                | Json.obj wd =>
                  some ("• " ++ pyStr (dget wd "weakness" (Json.str "N/A")) ++ " → " ++
                    pyStr (dget wd "solution" (Json.str "N/A")))
                | _ => none)
              if changes_list ≠ [] then
                match changes0 with
                | Json.str s =>
                  .ok (Json.str
                    (s ++ "\n\n**Addressed Weaknesses:**\n" ++ String.intercalate "\n" changes_list))
                | _ => .error "TypeError: changes_summary is not a string"
              else .ok changes0
            | _ => .ok changes0
          else .ok changes0
        | none => .ok changes0
      match changesE with
      | .error e => .error e
      | .ok changes_made =>
        match pySlice 500 critique.feedback_text with
        | none => .error "TypeError: feedback is not sliceable"
        | some fb =>
          .ok (some new_content, some
            { original_title := content.title
            , original_methodology := content.methodology
            , critique_feedback := fb
            , critique_score := critique.average_score
            , refinement_reasoning := dget data "thinking_process" (Json.str "No reasoning provided")
            , changes_made :=
                if jsonTruthy changes_made then changes_made
                else Json.str "No specific changes documented" })
    | _ =>
      match pySlice 500 critique.feedback_text with
      | none => .error "TypeError: feedback is not sliceable"
      | some fb =>
        .ok (some content, some
          { original_title := content.title
          , original_methodology := content.methodology
          , critique_feedback := fb
          , critique_score := critique.average_score
          , refinement_reasoning := Json.str "Parsing failed - using original content"
          , changes_made := Json.str "No changes (parsing error)" })

/-- `RefinerAgent.improve`, with the backend call abstracted into the
`response` argument: when content or critique is missing it returns the
latest content with no details (`return content, None`), otherwise it runs
the extraction/fallback body. -/
def improve (idea : IdeaObject) (response : String) :
    Except String (Option IdeaContent × Option RefinementDetails) :=
  match idea.latest_content, idea.latest_critique with
  | some content, some critique => improveCore content critique response
  | c, _ => .ok (c, none)

end RefinerAgent

/-! ## `research_loop` (`main.py`) -/

/-- The threshold lookup of `research_loop` (`main.py` lines 31–34):
`loop_settings.get("score_threshold", 3.0)` and
`loop_settings.get("drop_threshold", 2.0)`.  A configuration carrying
non-numeric threshold values would raise on the first comparison in
CPython and lies outside the modelled configuration space; the model is
exact for missing keys and numeric values. -/
def getThresholds (config : List (String × Json)) : ℚ × ℚ :=
  let loop_settings : List (String × Json) :=
    match dget config "loop_settings" (Json.obj []) with
    | Json.obj m => m
    | _ => []
  ( match dget loop_settings "score_threshold" (Json.num 3) with
    | Json.num q => q
    | _ => 3
  , match dget loop_settings "drop_threshold" (Json.num 2) with
    | Json.num q => q
    | _ => 2 )

/-- The three-way classification of the filter step of `research_loop`
(`main.py` lines 76–85): `accept` when `average_score >= score_threshold`,
else `drop` when `average_score < drop_threshold`, else `refine`. -/
inductive Verdict where
  | accept : Verdict
  | drop : Verdict
  | refine : Verdict
deriving DecidableEq

def classifyScore (average_score score_threshold drop_threshold : ℚ) : Verdict :=
  if score_threshold ≤ average_score then Verdict.accept
  else if average_score < drop_threshold then Verdict.drop
  else Verdict.refine

/-- `idea.evolution_history[-1].critique = review` (only when the history
is non-empty, as guarded in `main.py` line 71). -/
def setLastCritique (review : CritiqueMetrics) : List IdeaSnapshot → List IdeaSnapshot
  | [] => []
  | [s] => [{ s with critique := some review }]
  | s :: s2 :: rest => s :: setLastCritique review (s2 :: rest)

def attachCritique (idea : IdeaObject) (review : CritiqueMetrics) : IdeaObject :=
  { idea with evolution_history := setLastCritique review idea.evolution_history }

/-- One idea's turn inside `CriticAgent.evaluate`: the missing-content
error critique, or (after the printed `content.title[:50]` slice, which
raises on a non-sliceable title) the parsed critique of the backend
response `oracle idea`. -/
def criticStep (oracle : IdeaObject → String) (idea : IdeaObject) :
    Except String CritiqueMetrics :=
  match idea.latest_content with
  | none => .ok (CriticAgent.create_error_critique "No content found")
  | some content =>
    match pySlice 50 content.title with
    | none => .error "TypeError: title is not sliceable"
    | some _ => .ok (CriticAgent.parse_critique_response (oracle idea))

/-- `CriticAgent.evaluate` over the whole active list. -/
def evalIdeas (oracle : IdeaObject → String) : List IdeaObject → Except String (List CritiqueMetrics)
  | [] => .ok []
  | i :: rest =>
    match criticStep oracle i with
    | .error e => .error e
    | .ok r =>
      match evalIdeas oracle rest with
      | .error e => .error e
      | .ok rs => .ok (r :: rs)

/-- The filter phase of a pass (`main.py` lines 69–85): attach each fresh
critique to the idea's last snapshot, print the title slice (raising when
the latest content is `None` or its title not sliceable), then classify.
Returns, in pass order: all updated ideas, the newly accepted, the newly
rejected, and the `needs_refinement` bucket. -/
def filterPhase (score_threshold drop_threshold : ℚ) :
    List (IdeaObject × CritiqueMetrics) →
    Except String (List IdeaObject × List IdeaObject × List IdeaObject × List IdeaObject)
  | [] => .ok ([], [], [], [])
  | (idea0, review) :: rest =>
    let idea := attachCritique idea0 review
    match idea.latest_content with
    | none => .error "AttributeError: latest_content is None"
    | some content =>
      match pySlice 30 content.title with
      | none => .error "TypeError: title is not sliceable"
      | some _ =>
        match filterPhase score_threshold drop_threshold rest with
        | .error e => .error e
        | .ok (alls, accs, rejs, needs) =>
          match classifyScore review.average_score score_threshold drop_threshold with
          | Verdict.accept =>
            let i2 := { idea with status := "accepted" }
            .ok (i2 :: alls, i2 :: accs, rejs, needs)
          | Verdict.drop =>
            let i2 := { idea with status := "rejected" }
            .ok (i2 :: alls, accs, i2 :: rejs, needs)
          | Verdict.refine =>
            .ok (idea :: alls, accs, rejs, idea :: needs)

/-- One idea's refinement (`main.py` lines 94–106): run the refiner, then
append the new snapshot (iteration `loop + 1`, role `refined`) and bump
`current_iteration`. -/
def refineStep (oracle : IdeaObject → String) (loopIdx : Nat) (idea : IdeaObject) :
    Except String IdeaObject :=
  match RefinerAgent.improve idea (oracle idea) with
  | .error e => .error e
  | .ok (new_content, refinement_details) =>
    .ok { idea with
      evolution_history := idea.evolution_history ++
        [{ iteration := loopIdx + 1
         , role := "refined"
         , content := new_content
         , critique := none
         , refinement_details := refinement_details }]
      current_iteration := idea.current_iteration + 1 }

def refinePhase (oracle : IdeaObject → String) (loopIdx : Nat) :
    List IdeaObject → Except String (List IdeaObject)
  | [] => .ok []
  | i :: rest =>
    match refineStep oracle loopIdx i with
    | .error e => .error e
    | .ok j =>
      match refinePhase oracle loopIdx rest with
      | .error e => .error e
      | .ok js => .ok (j :: js)

/-- The `for loop in range(max_loops)` of `research_loop`, with `fuel` the
remaining passes and `loopIdx` the current value of `loop`.  `acc` and
`rej` accumulate, in append order, the ideas accepted so far
(`accepted_ideas` in the source) and the ideas rejected so far (which the
source simply drops from every list; they are threaded here so that the
persistence claim can speak about them).  Returns the list bound to
`ideas` after the loop together with the two accumulators. -/
def researchLoopAux (criticO refO : IdeaObject → String) (score_threshold drop_threshold : ℚ) :
    Nat → Nat → List IdeaObject → List IdeaObject → List IdeaObject →
    Except String (List IdeaObject × List IdeaObject × List IdeaObject)
  | 0, _, ideas, acc, rej => .ok (ideas, acc, rej)
  | Nat.succ fuel, loopIdx, ideas, acc, rej =>
    if ideas.isEmpty then .ok (ideas, acc, rej)
    else
      match evalIdeas criticO ideas with
      | .error e => .error e
      | .ok critiques =>
        match filterPhase score_threshold drop_threshold (ideas.zip critiques) with
        | .error e => .error e
        | .ok (alls, newAcc, newRej, needs) =>
          if needs.isEmpty then .ok (alls, acc ++ newAcc, rej ++ newRej)
          else
            match refinePhase refO loopIdx needs with
            | .error e => .error e
            | .ok refined =>
              researchLoopAux criticO refO score_threshold drop_threshold fuel (loopIdx + 1)
                refined (acc ++ newAcc) (rej ++ newRej)

/-- The post-loop best-effort finalization (`main.py` lines 115–120):
every remaining idea still `active` becomes `refined_best_effort` and is
appended to the accepted list. -/
def finalizeIdeas (ideas : List IdeaObject) : List IdeaObject :=
  (ideas.filter (fun i => i.status == "active")).map
    (fun i => { i with status := "refined_best_effort" })

/-- `research_loop` of `main.py`, from the point where the generated
drafts are in hand: thresholds are read from the configuration, the loop
runs for at most `max_loops` passes, and the persisted output
(`accepted_ideas`, first component) is the accepted ideas followed by the
force-finalized best-effort ideas.  The second component is the list of
rejected ideas, which the source never persists. -/
def research_loop (config : List (String × Json)) (criticO refO : IdeaObject → String)
    (max_loops : Nat) (ideas : List IdeaObject) :
    Except String (List IdeaObject × List IdeaObject) :=
  let t := getThresholds config
  match researchLoopAux criticO refO t.1 t.2 max_loops 0 ideas [] [] with
  | .error e => .error e
  | .ok (finalIdeas, acc, rej) => .ok (acc ++ finalizeIdeas finalIdeas, rej)

/-! ## Helper lemmas -/

theorem sliceable_some (n : Nat) {j : Json} (h : isSliceable j = true) :
    ∃ v, pySlice n j = some v := by
  cases j with
  | str s => exact ⟨_, rfl⟩
  | arr l => exact ⟨_, rfl⟩
  | null => exact absurd h (by decide)
  | bool b => exact absurd h (by simp [isSliceable])
  | num q => exact absurd h (by simp [isSliceable])
  | obj m => exact absurd h (by simp [isSliceable])

theorem setLastCritique_getLast? (r : CritiqueMetrics) :
    ∀ h : List IdeaSnapshot,
      (setLastCritique r h).getLast? = h.getLast?.map (fun s => { s with critique := some r })
  | [] => rfl
  | [_] => rfl
  | s :: s2 :: rest => by
    have ih := setLastCritique_getLast? r (s2 :: rest)
    obtain ⟨t, ts, hts⟩ : ∃ t ts, setLastCritique r (s2 :: rest) = t :: ts := by
      cases rest with
      | nil => exact ⟨_, _, rfl⟩
      | cons a as => exact ⟨_, _, rfl⟩
    rw [show setLastCritique r (s :: s2 :: rest) = s :: setLastCritique r (s2 :: rest) from rfl,
      hts, List.getLast?_cons_cons, ← hts, ih, List.getLast?_cons_cons]

theorem setLastCritique_length (r : CritiqueMetrics) :
    ∀ h : List IdeaSnapshot, (setLastCritique r h).length = h.length
  | [] => rfl
  | [_] => rfl
  | s :: s2 :: rest => by
    rw [show setLastCritique r (s :: s2 :: rest) = s :: setLastCritique r (s2 :: rest) from rfl,
      List.length_cons, List.length_cons, setLastCritique_length r (s2 :: rest)]

theorem attachCritique_status (i : IdeaObject) (r : CritiqueMetrics) :
    (attachCritique i r).status = i.status := rfl

theorem attachCritique_length (i : IdeaObject) (r : CritiqueMetrics) :
    (attachCritique i r).evolution_history.length = i.evolution_history.length :=
  setLastCritique_length r i.evolution_history

theorem attachCritique_latest_content (i : IdeaObject) (r : CritiqueMetrics) :
    (attachCritique i r).latest_content = i.latest_content := by
  unfold IdeaObject.latest_content attachCritique
  rw [setLastCritique_getLast?]
  cases i.evolution_history.getLast? <;> rfl

theorem attachCritique_latest_critique (i : IdeaObject) (r : CritiqueMetrics)
    (h : i.evolution_history.getLast?.isSome) :
    (attachCritique i r).latest_critique = some r := by
  unfold IdeaObject.latest_critique attachCritique
  rw [setLastCritique_getLast?]
  cases hl : i.evolution_history.getLast? with
  | none => rw [hl] at h; exact absurd h (by simp)
  | some s => rfl

theorem latest_content_getLast?_isSome {i : IdeaObject} {c : IdeaContent}
    (h : i.latest_content = some c) : i.evolution_history.getLast?.isSome := by
  unfold IdeaObject.latest_content at h
  cases hl : i.evolution_history.getLast? with
  | none => rw [hl] at h; exact absurd h (by simp)
  | some s => simp

theorem refineStep_spec {o : IdeaObject → String} {n : Nat} {i j : IdeaObject}
    (h : refineStep o n i = .ok j) :
    ∃ nc det, RefinerAgent.improve i (o i) = .ok (nc, det) ∧
      j.status = i.status ∧
      j.current_iteration = i.current_iteration + 1 ∧
      j.evolution_history.length = i.evolution_history.length + 1 ∧
      j.latest_content = nc ∧
      j.latest_critique = none := by
  unfold refineStep at h
  cases himp : RefinerAgent.improve i (o i) with
  | error e => rw [himp] at h; exact absurd h (by simp)
  | ok p =>
    obtain ⟨nc, det⟩ := p
    rw [himp] at h
    refine ⟨nc, det, rfl, ?_⟩
    cases h
    refine ⟨rfl, rfl, by simp, ?_, ?_⟩
    · unfold IdeaObject.latest_content
      rw [List.getLast?_concat]
    · unfold IdeaObject.latest_critique
      rw [List.getLast?_concat]

theorem classifyScore_refine {a st dt : ℚ} (h1 : dt ≤ a) (h2 : a < st) :
    classifyScore a st dt = Verdict.refine := by
  unfold classifyScore
  rw [if_neg (by linarith), if_neg (by linarith)]

theorem finalizeIdeas_status {l : List IdeaObject} {i : IdeaObject} (h : i ∈ finalizeIdeas l) :
    i.status = "refined_best_effort" := by
  unfold finalizeIdeas at h
  obtain ⟨j, _, rfl⟩ := List.mem_map.mp h
  rfl

theorem finalizeIdeas_of_all_active {l : List IdeaObject}
    (h : ∀ i ∈ l, i.status = "active") :
    finalizeIdeas l = l.map (fun i => { i with status := "refined_best_effort" }) := by
  unfold finalizeIdeas
  congr 1
  apply List.filter_eq_self.mpr
  intro i hi
  rw [h i hi]
  rfl

/-! ## Claims -/

/-- C1 (counterexample).  The claim asserts that a parse failure on the
fenced block of step 1 falls through to steps 2 and 3, so that `null` is
returned only when all three steps fail.  On the input
"```x``` \x7b"a": 1\x7d", step 1 finds the fenced block with inner text
"x", whose parse fails; step 2's bracket slice is exactly "\x7b"a": 1\x7d",
which parses fine — yet `extract_json` returns `null`, because the single
`try`/`except` of the source aborts on the first `json.loads` failure
instead of falling through. -/
theorem c1_counterexample :
    findFenced "```x``` \x7b\"a\": 1\x7d" = some "x" ∧
    json_loads (pyStrip "x") = Except.error "Expecting value" ∧
    json_loads "\x7b\"a\": 1\x7d" = Except.ok (Json.obj [("a", Json.num 1)]) ∧
    extract_json "```x``` \x7b\"a\": 1\x7d" = Json.null :=
  ⟨rfl, rfl, rfl, rfl⟩

/-- C1 (amended).  When step 1 of `extract_json` finds a fenced code
block, the result is exactly the parse of the block's stripped inner text,
with `null` on parse failure: steps 2 and 3 are never attempted after step
1 has found a block; fall-through happens only when a step finds no
candidate, never on a parse failure. -/
theorem c1_amended (text inner : String) (h : findFenced text = some inner) :
    extract_json text =
      (match json_loads (pyStrip inner) with
       | Except.ok v => v
       | Except.error _ => Json.null) := by
  unfold extract_json extract_json_body
  rw [h]

/-- Witness for C1 (amended) at a concrete input. -/
theorem c1_amended_witness :
    findFenced "```json 1```" = some "1" ∧ extract_json "```json 1```" = Json.num 1 :=
  ⟨rfl, (c1_amended "```json 1```" "1" rfl).trans rfl⟩

/-- C2 (counterexample).  The claim asserts that an average exactly equal
to `drop_below` classifies `drop`; the source tests
`average_score < drop_threshold` strictly, so with thresholds
`accept_at = 3`, `drop_below = 2` an average of exactly `2` classifies
`refine`, not `drop`. -/
theorem c2_counterexample :
    classifyScore 2 3 2 = Verdict.refine ∧ classifyScore 2 3 2 ≠ Verdict.drop := by
  constructor
  · rfl
  · intro h
    exact Verdict.noConfusion ((rfl : classifyScore 2 3 2 = Verdict.refine).symm.trans h)

/-- C2 (amended).  Classification of the critique average against the two
thresholds: `accept` when `average ≥ accept_at` (ties at `accept_at` favor
accept), `drop` when `average < drop_below` (strict: an average exactly
equal to `drop_below` is NOT dropped), and `refine` otherwise — in
particular an average equal to `drop_below` (and below `accept_at`)
classifies `refine`. -/
theorem c2_amended (avg accept_at drop_below : ℚ) :
    (accept_at ≤ avg → classifyScore avg accept_at drop_below = Verdict.accept) ∧
    (avg < accept_at → avg < drop_below → classifyScore avg accept_at drop_below = Verdict.drop) ∧
    (avg < accept_at → drop_below ≤ avg → classifyScore avg accept_at drop_below = Verdict.refine) := by
  refine ⟨fun h => ?_, fun h1 h2 => ?_, fun h1 h2 => ?_⟩
  · unfold classifyScore
    rw [if_pos h]
  · unfold classifyScore
    rw [if_neg (by linarith), if_pos h2]
  · exact classifyScore_refine h2 h1

/-- Witness for C2 (amended): the three classifications at thresholds
`accept_at = 3`, `drop_below = 2`, including both boundary cases. -/
theorem c2_amended_witness :
    classifyScore 3 3 2 = Verdict.accept ∧
    classifyScore 1 3 2 = Verdict.drop ∧
    classifyScore 2 3 2 = Verdict.refine :=
  ⟨(c2_amended 3 3 2).1 (by norm_num),
   (c2_amended 1 3 2).2.1 (by norm_num) (by norm_num),
   (c2_amended 2 3 2).2.2 (by norm_num) (by norm_num)⟩

/-- C8 (confirmed).  `extract_json` never raises: whatever the `try` body
does — return a value or raise (`Except.error`) — `extract_json` returns a
value, with every raised exception converted to `null` by the `except`
clauses. -/
theorem c8_never_raises (text : String) :
    (∃ v, extract_json_body text = Except.ok v ∧ extract_json text = v) ∨
    (∃ e, extract_json_body text = Except.error e ∧ extract_json text = Json.null) := by
  cases h : extract_json_body text with
  | ok v => exact Or.inl ⟨v, rfl, by unfold extract_json; rw [h]⟩
  | error e => exact Or.inr ⟨e, rfl, by unfold extract_json; rw [h]⟩

/-- C9 (counterexample).  The claim asserts that a configuration missing
`score_threshold`/`drop_threshold` fails the run at startup.  The source
instead reads them with `dict.get` defaults (`3.0`, `2.0`): on the empty
configuration the thresholds come back as the defaults and the run
proceeds normally (here: a whole run completing with an `ok` result). -/
theorem c9_counterexample :
    getThresholds [] = (3, 2) ∧
    research_loop [] (fun _ => "") (fun _ => "") 3 [] = Except.ok ([], []) :=
  ⟨rfl, rfl⟩

/-- C9 (amended).  A configuration whose `loop_settings` carries neither
threshold does not fail the run: the thresholds default to `3.0` and
`2.0`, and the whole run behaves exactly as under the empty
configuration — no startup failure exists in the source. -/
theorem c9_amended (config : List (String × Json)) (ls : List (String × Json))
    (h1 : dget config "loop_settings" (Json.obj []) = Json.obj ls)
    (h2 : dictFind ls "score_threshold" = none)
    (h3 : dictFind ls "drop_threshold" = none) :
    getThresholds config = (3, 2) ∧
    (∀ criticO refO max_loops ideas,
      research_loop config criticO refO max_loops ideas =
        research_loop [] criticO refO max_loops ideas) := by
  have ht : getThresholds config = (3, 2) := by
    have e1 : getThresholds config =
        (match dget ls "score_threshold" (Json.num 3) with
         | Json.num q => q
         | _ => 3,
         match dget ls "drop_threshold" (Json.num 2) with
         | Json.num q => q
         | _ => 2) := by
      unfold getThresholds
      rw [h1]
    rw [e1]
    unfold dget
    rw [h2, h3]
  refine ⟨ht, fun criticO refO max_loops ideas => ?_⟩
  unfold research_loop
  rw [ht]
  rfl

/-- Witness for C9 (amended): a configuration with an unrelated key and no
thresholds defaults to `(3, 2)` and runs as if unconfigured. -/
theorem c9_amended_witness :
    getThresholds [("ollama", Json.obj [])] = (3, 2) ∧
    research_loop [("ollama", Json.obj [])] (fun _ => "a") (fun _ => "b") 2 [] =
      research_loop [] (fun _ => "a") (fun _ => "b") 2 [] :=
  ⟨(c9_amended [("ollama", Json.obj [])] [] rfl rfl rfl).1,
   (c9_amended [("ollama", Json.obj [])] [] rfl rfl rfl).2 _ _ _ _⟩

/-! ## Averaging and rounding lemmas (C3/C4) -/

theorem mkRat_eq_div_cast (n : Int) (d : Nat) : mkRat n d = (n : ℚ) / (d : ℚ) := by
  rw [Rat.mkRat_eq_divInt, Rat.divInt_eq_div]
  norm_num

theorem round2_eq_floor (q : ℚ) :
    round2 q = ((⌊(100 : ℚ) * q + 1 / 2⌋ : ℤ) : ℚ) / 100 := by
  have hden : (q.den : ℚ) ≠ 0 := Nat.cast_ne_zero.mpr q.den_nz
  have harg : (100 : ℚ) * q + 1 / 2 = ((200 * q.num + (q.den : ℤ) : ℤ) : ℚ) / ((2 * q.den : ℕ) : ℚ) := by
    have h := Rat.num_div_den q
    rw [div_eq_iff hden] at h
    push_cast
    rw [eq_div_iff (by positivity)]
    linear_combination 200 * h.symm
  have h2 : ⌊(100 : ℚ) * q + 1 / 2⌋ = (200 * q.num + q.den) / (2 * (q.den : ℤ)) := by
    rw [harg, Rat.floor_intCast_div_natCast]
    push_cast
    rfl
  unfold round2
  rw [mkRat_eq_div_cast, h2]
  norm_num

theorem round2_zero : round2 0 = 0 := rfl

theorem round2_nonneg {q : ℚ} (h : 0 ≤ q) : 0 ≤ round2 q := by
  rw [round2_eq_floor]
  have : (0 : ℤ) ≤ ⌊(100 : ℚ) * q + 1 / 2⌋ := Int.floor_nonneg.mpr (by linarith)
  have : (0 : ℚ) ≤ ((⌊(100 : ℚ) * q + 1 / 2⌋ : ℤ) : ℚ) := by exact_mod_cast this
  linarith

theorem round2_le_five {q : ℚ} (h : q ≤ 5) : round2 q ≤ 5 := by
  rw [round2_eq_floor]
  have h1 : ⌊(100 : ℚ) * q + 1 / 2⌋ < 501 := Int.floor_lt.mpr (by push_cast; linarith)
  have h2 : ((⌊(100 : ℚ) * q + 1 / 2⌋ : ℤ) : ℚ) ≤ 500 := by exact_mod_cast (by omega : ⌊(100 : ℚ) * q + 1 / 2⌋ ≤ 500)
  linarith

theorem round2_ge_one {q : ℚ} (h : 1 ≤ q) : 1 ≤ round2 q := by
  rw [round2_eq_floor]
  have h1 : (100 : ℤ) ≤ ⌊(100 : ℚ) * q + 1 / 2⌋ := Int.le_floor.mpr (by push_cast; linarith)
  have h2 : (100 : ℚ) ≤ ((⌊(100 : ℚ) * q + 1 / 2⌋ : ℤ) : ℚ) := by exact_mod_cast h1
  linarith

theorem foldl_add_eq_sum (l : List Int) : ∀ a : Int, l.foldl (· + ·) a = a + l.sum := by
  induction l with
  | nil => intro a; simp
  | cons x xs ih =>
    intro a
    rw [List.foldl_cons, ih, List.sum_cons]
    ring

theorem sum_ge_length {v : List Int} (h : ∀ x ∈ v, 1 ≤ x) : (v.length : Int) ≤ v.sum := by
  induction v with
  | nil => simp
  | cons x xs ih =>
    rw [List.sum_cons, List.length_cons]
    have h1 := h x (List.mem_cons_self x xs)
    have h2 := ih (fun y hy => h y (List.mem_cons_of_mem x hy))
    push_cast
    linarith

theorem sum_le_five_mul {v : List Int} (h : ∀ x ∈ v, x ≤ 5) : v.sum ≤ 5 * v.length := by
  induction v with
  | nil => simp
  | cons x xs ih =>
    rw [List.sum_cons, List.length_cons]
    have h1 := h x (List.mem_cons_self x xs)
    have h2 := ih (fun y hy => h y (List.mem_cons_of_mem x hy))
    push_cast
    linarith

theorem scoresAverage_of_filter_nil {l : List Int} (h : l.filter (fun s => 0 < s) = []) :
    scoresAverage l = 0 := by
  unfold scoresAverage
  rw [h]
  rfl

theorem mem_posFilter_ge_one {l : List Int} {x : Int}
    (hx : x ∈ l.filter (fun s => 0 < s)) : 1 ≤ x := by
  have := List.of_mem_filter hx
  have hpos : 0 < x := of_decide_eq_true this
  omega

theorem scoresAverage_ge_one {l : List Int} (h : l.filter (fun s => 0 < s) ≠ []) :
    1 ≤ scoresAverage l := by
  unfold scoresAverage
  rw [if_neg h]
  have hpos : ∀ x ∈ l.filter (fun s => 0 < s), 1 ≤ x := fun x hx => mem_posFilter_ge_one hx
  have hsum : ((l.filter (fun s => 0 < s)).length : Int) ≤ (l.filter (fun s => 0 < s)).sum :=
    sum_ge_length hpos
  have hlen : 0 < (l.filter (fun s => 0 < s)).length := List.length_pos.mpr h
  rw [foldl_add_eq_sum, mkRat_eq_div_cast]
  rw [one_le_div (by exact_mod_cast hlen : (0 : ℚ) < ((l.filter (fun s => 0 < s)).length : ℚ))]
  have : (((l.filter (fun s => 0 < s)).length : Int) : ℚ) ≤ (((l.filter (fun s => 0 < s)).sum : Int) : ℚ) := by
    exact_mod_cast hsum
  push_cast at this ⊢
  linarith

theorem scoresAverage_nonneg (l : List Int) : 0 ≤ scoresAverage l := by
  by_cases h : l.filter (fun s => 0 < s) = []
  · rw [scoresAverage_of_filter_nil h]
  · linarith [scoresAverage_ge_one h]

theorem scoresAverage_le_five {l : List Int} (h5 : ∀ x ∈ l, x ≤ 5) : scoresAverage l ≤ 5 := by
  by_cases h : l.filter (fun s => 0 < s) = []
  · rw [scoresAverage_of_filter_nil h]; norm_num
  · unfold scoresAverage
    rw [if_neg h, foldl_add_eq_sum, mkRat_eq_div_cast]
    have hlen : 0 < (l.filter (fun s => 0 < s)).length := List.length_pos.mpr h
    have hsum : (l.filter (fun s => 0 < s)).sum ≤ 5 * (l.filter (fun s => 0 < s)).length :=
      sum_le_five_mul (fun x hx => h5 x (List.mem_of_mem_filter hx))
    rw [div_le_iff₀ (by exact_mod_cast hlen : (0 : ℚ) < ((l.filter (fun s => 0 < s)).length : ℚ))]
    have : (((l.filter (fun s => 0 < s)).sum : Int) : ℚ) ≤ ((5 * (l.filter (fun s => 0 < s)).length : Int) : ℚ) := by
      exact_mod_cast hsum
    push_cast at this ⊢
    linarith

theorem posFilter_nil_iff (n f s i : Int) :
    [n, f, s, i].filter (fun s => 0 < s) = [] ↔ (n ≤ 0 ∧ f ≤ 0 ∧ s ≤ 0 ∧ i ≤ 0) := by
  rw [List.filter_eq_nil_iff]
  constructor
  · intro h
    have hn := h n (by simp)
    have hf := h f (by simp)
    have hs := h s (by simp)
    have hi := h i (by simp)
    simp only [decide_eq_true_eq] at hn hf hs hi
    exact ⟨by omega, by omega, by omega, by omega⟩
  · intro ⟨h1, h2, h3, h4⟩ a ha
    simp only [List.mem_cons, List.not_mem_nil, or_false] at ha
    simp only [decide_eq_true_eq]
    rcases ha with rfl | rfl | rfl | rfl <;> omega

/-- The three properties of the stored rounded average shared by both
critique-builder paths. -/
theorem avg_props (n f s i : Int) :
    0 ≤ round2 (scoresAverage [n, f, s, i]) ∧
    (round2 (scoresAverage [n, f, s, i]) = 0 ↔ (n ≤ 0 ∧ f ≤ 0 ∧ s ≤ 0 ∧ i ≤ 0)) ∧
    (n ≤ 5 → f ≤ 5 → s ≤ 5 → i ≤ 5 → round2 (scoresAverage [n, f, s, i]) ≤ 5) := by
  refine ⟨round2_nonneg (scoresAverage_nonneg _), ?_, fun h1 h2 h3 h4 => ?_⟩
  · constructor
    · intro hz
      by_contra hne
      have hfil : [n, f, s, i].filter (fun s => 0 < s) ≠ [] := by
        intro hc
        exact hne ((posFilter_nil_iff n f s i).mp hc)
      have := round2_ge_one (scoresAverage_ge_one hfil)
      rw [hz] at this
      linarith
    · intro hle
      rw [scoresAverage_of_filter_nil ((posFilter_nil_iff n f s i).mpr hle)]
      exact round2_zero
  · apply round2_le_five
    apply scoresAverage_le_five
    intro x hx
    simp only [List.mem_cons, List.not_mem_nil, or_false] at hx
    rcases hx with rfl | rfl | rfl | rfl <;> omega

theorem find_score_go_range (lower : List Char) : ∀ kws : List String,
    0 ≤ CriticAgent.find_score_go lower kws ∧ CriticAgent.find_score_go lower kws ≤ 5
  | [] => by
    constructor <;> simp [CriticAgent.find_score_go]
  | kw :: rest => by
    have ih := find_score_go_range lower rest
    unfold CriticAgent.find_score_go
    dsimp only
    cases h1 : CriticAgent.searchPat (CriticAgent.matchPat1At kw.data) lower with
    | some d =>
      dsimp only
      by_cases hd : 1 ≤ d ∧ d ≤ 5
      · rw [if_pos hd]
        dsimp only
        constructor <;> omega
      · rw [if_neg hd]
        dsimp only
        cases h2 : CriticAgent.searchPat (CriticAgent.matchPat2At kw.data) lower with
        | some d2 =>
          dsimp only
          by_cases hd2 : 1 ≤ d2 ∧ d2 ≤ 5
          · rw [if_pos hd2]
            constructor <;> omega
          · rw [if_neg hd2]
            exact ih
        | none => exact ih
    | none =>
      dsimp only
      cases h2 : CriticAgent.searchPat (CriticAgent.matchPat2At kw.data) lower with
      | some d2 =>
        dsimp only
        by_cases hd2 : 1 ≤ d2 ∧ d2 ≤ 5
        · rw [if_pos hd2]
          constructor <;> omega
        · rw [if_neg hd2]
          exact ih
      | none => exact ih

theorem find_score_range (text : String) (kws : List String) :
    0 ≤ CriticAgent.find_score text kws ∧ CriticAgent.find_score text kws ≤ 5 :=
  find_score_go_range (text.data.map Char.toLower) kws

/-- C3 (counterexample).  The claim asserts that the stored
`average_score` equals the average recomputed from the record's four
scores.  On a critique whose scores are `4, 3, 3` (impact missing, so
`0`), the builder stores `round(10/3, 2) = 3.33` while
`compute_average` recomputes `10/3 = 3.333…`; the two differ because the
source rounds to two decimals before storing. -/
theorem c3_counterexample :
    (CriticAgent.parse_critique_response
      "\x7b\"novelty_score\": 4, \"feasibility_score\": 3, \"specificity_score\": 3\x7d").average_score
        = mkRat 333 100 ∧
    (CriticAgent.parse_critique_response
      "\x7b\"novelty_score\": 4, \"feasibility_score\": 3, \"specificity_score\": 3\x7d").compute_average
        = mkRat 10 3 ∧
    (mkRat 333 100 : ℚ) ≠ mkRat 10 3 :=
  ⟨rfl, rfl, by decide⟩

/-- C3 (amended).  For every critique record produced by either path of
the builder, the stored `average_score` equals the recomputed average of
the record's four scores **rounded to two decimals** (`round(x, 2)`);
exact equality holds only when the mean is representable with two
decimals. -/
theorem c3_amended (response : String) :
    (CriticAgent.parse_critique_response response).average_score =
      round2 ((CriticAgent.parse_critique_response response).compute_average) := by
  unfold CriticAgent.parse_critique_response
  cases extract_json response <;> rfl

/-- C4 (counterexample).  The claim asserts the stored average always lies
in `[0,5]`.  The builder never clamps scores: a critique response claiming
`novelty_score = 100` produces `average_score = 100`. -/
theorem c4_counterexample :
    (CriticAgent.parse_critique_response "\x7b\"novelty_score\": 100\x7d").average_score = 100 ∧
    ¬ ((CriticAgent.parse_critique_response "\x7b\"novelty_score\": 100\x7d").average_score ≤ 5) := by
  constructor
  · rfl
  · intro h
    rw [show (CriticAgent.parse_critique_response
          "\x7b\"novelty_score\": 100\x7d").average_score = (100 : ℚ) from rfl] at h
    norm_num at h

/-- C4 (amended).  For every critique response: the stored average is
`≥ 0`; it is `0.0` iff no score field is positive (not "iff all four are
0": a negative parsed score also counts as unscored); and it is `≤ 5`
whenever every coerced score field is `≤ 5` — which always holds on the
text-fallback path, whose scores are confined to `[0,5]`, but can fail on
the JSON path since scores are not clamped. -/
theorem c4_amended (response : String) :
    0 ≤ (CriticAgent.parse_critique_response response).average_score ∧
    ((CriticAgent.parse_critique_response response).average_score = 0 ↔
      ((CriticAgent.parse_critique_response response).novelty_score ≤ 0 ∧
       (CriticAgent.parse_critique_response response).feasibility_score ≤ 0 ∧
       (CriticAgent.parse_critique_response response).specificity_score ≤ 0 ∧
       (CriticAgent.parse_critique_response response).impact_score ≤ 0)) ∧
    ((CriticAgent.parse_critique_response response).novelty_score ≤ 5 →
     (CriticAgent.parse_critique_response response).feasibility_score ≤ 5 →
     (CriticAgent.parse_critique_response response).specificity_score ≤ 5 →
     (CriticAgent.parse_critique_response response).impact_score ≤ 5 →
     (CriticAgent.parse_critique_response response).average_score ≤ 5) ∧
    ((∀ d, extract_json response ≠ Json.obj d) →
      (CriticAgent.parse_critique_response response).average_score ≤ 5) := by
  unfold CriticAgent.parse_critique_response
  cases hex : extract_json response
  case obj data =>
    exact ⟨(avg_props _ _ _ _).1, (avg_props _ _ _ _).2.1,
      fun h1 h2 h3 h4 => (avg_props _ _ _ _).2.2 h1 h2 h3 h4,
      fun hno => absurd rfl (hno data)⟩
  all_goals
    exact ⟨(avg_props _ _ _ _).1, (avg_props _ _ _ _).2.1,
      fun h1 h2 h3 h4 => (avg_props _ _ _ _).2.2 h1 h2 h3 h4,
      fun _ => (avg_props _ _ _ _).2.2
        (find_score_range response ["novelty", "novel"]).2
        (find_score_range response ["feasibility", "feasible"]).2
        (find_score_range response ["specificity", "specific"]).2
        (find_score_range response ["impact"]).2⟩

/-- Witness for C4 (amended) on the text-fallback path (a concrete
response with no JSON structure), discharging the inner implications. -/
theorem c4_amended_witness :
    0 ≤ (CriticAgent.parse_critique_response "Novelty: 4/5 and feasibility score: 2").average_score ∧
    (CriticAgent.parse_critique_response "Novelty: 4/5 and feasibility score: 2").average_score ≤ 5 := by
  obtain ⟨h1, _, _, h4⟩ := c4_amended "Novelty: 4/5 and feasibility score: 2"
  refine ⟨h1, h4 ?_⟩
  intro d hd
  rw [show extract_json "Novelty: 4/5 and feasibility score: 2" = Json.null from rfl] at hd
  exact Json.noConfusion hd

/-- C6 (amended).  When refinement extraction succeeds (a dict is
extracted) and `improve` completes, the new content's title, methodology
and description are each `data.get(key, prior-field)`: they fall back
individually to the prior content's field exactly when the extracted
object omits the key.  (A key present with value `null` — or any other
value — is taken verbatim, so the title is NOT guaranteed present: see the
counterexample.) -/
theorem c6_amended (idea : IdeaObject) (response : String) (content : IdeaContent)
    (critique : CritiqueMetrics) (data : List (String × Json))
    (nc : Option IdeaContent) (det : Option RefinementDetails)
    (h1 : idea.latest_content = some content) (h2 : idea.latest_critique = some critique)
    (h3 : extract_json response = Json.obj data)
    (h4 : RefinerAgent.improve idea response = Except.ok (nc, det)) :
    nc = some { title := dget data "refined_title" content.title
              , methodology := dget data "refined_methodology" content.methodology
              , description := dget data "refined_description" content.description
              , raw_content := Json.str response } ∧
    (dictFind data "refined_title" = none →
      dget data "refined_title" content.title = content.title) ∧
    (dictFind data "refined_methodology" = none →
      dget data "refined_methodology" content.methodology = content.methodology) ∧
    (dictFind data "refined_description" = none →
      dget data "refined_description" content.description = content.description) := by
  have hget : ∀ (k : String) (dflt : Json), dictFind data k = none → dget data k dflt = dflt := by
    intro k dflt h
    unfold dget
    rw [h]
  refine ⟨?_, hget _ _, hget _ _, hget _ _⟩
  unfold RefinerAgent.improve at h4
  rw [h1, h2] at h4
  dsimp only at h4
  unfold RefinerAgent.improveCore at h4
  rw [h3] at h4
  dsimp only at h4
  split at h4
  · exact Except.noConfusion h4
  · split at h4
    · exact Except.noConfusion h4
    · split at h4
      · exact Except.noConfusion h4
      · simp only [Except.ok.injEq, Prod.mk.injEq] at h4
        exact h4.1.symm

/-- Fixture for the C6 counterexample: prior content with a present
(string) title. -/
def c6_content : IdeaContent := { title := Json.str "T", methodology := Json.str "M" }

def c6_critique : CritiqueMetrics := CriticAgent.create_error_critique "seed"

def c6_idea : IdeaObject :=
  { idea_id := "c6"
  , evolution_history :=
      [{ iteration := 0, role := "draft", content := some c6_content, critique := some c6_critique }] }

/-- Title of the content returned by a successful `improve`. -/
def c6_titleOf : Except String (Option IdeaContent × Option RefinementDetails) → Json
  | .ok (some nc, _) => nc.title
  | _ => Json.bool true

/-- C6 (counterexample).  The claim's consequence "the refiner never
returns content with a missing title given a prior content whose title is
present" is false: a response whose extracted dict maps `refined_title`
to `null` makes `improve` return content with a `None` title even though
the prior title was the string "T" — `dict.get(key, default)` falls back
only on a missing key, not on a null value. -/
theorem c6_counterexample :
    c6_content.title = Json.str "T" ∧
    c6_idea.latest_content = some c6_content ∧
    c6_titleOf (RefinerAgent.improve c6_idea "\x7b\"refined_title\": null\x7d") = Json.null :=
  ⟨rfl, rfl, rfl⟩

def c6w_content : IdeaContent := { title := Json.str "T", methodology := Json.str "M" }

def c6w_critique : CritiqueMetrics := CriticAgent.create_error_critique "seed"

def c6w_idea : IdeaObject :=
  { idea_id := "c6w"
  , evolution_history :=
      [{ iteration := 0, role := "draft", content := some c6w_content, critique := some c6w_critique }] }

def c6w_response : String := "\x7b\"refined_title\": \"S\"\x7d"

def c6w_data : List (String × Json) := [("refined_title", Json.str "S")]

def c6w_nc : IdeaContent :=
  { title := Json.str "S"
  , methodology := Json.str "M"
  , description := Json.null
  , raw_content := Json.str c6w_response }

def c6w_det : RefinementDetails :=
  { original_title := Json.str "T"
  , original_methodology := Json.str "M"
  , critique_feedback := Json.str "Error: seed"
  , critique_score := 0
  , refinement_reasoning := Json.str "No reasoning provided"
  , changes_made := Json.str "No specific changes documented" }

/-- Witness for C6 (amended) at a concrete successful refinement. -/
theorem c6_amended_witness :
    (some c6w_nc : Option IdeaContent) =
      some { title := dget c6w_data "refined_title" c6w_content.title
           , methodology := dget c6w_data "refined_methodology" c6w_content.methodology
           , description := dget c6w_data "refined_description" c6w_content.description
           , raw_content := Json.str c6w_response } ∧
    (dictFind c6w_data "refined_title" = none →
      dget c6w_data "refined_title" c6w_content.title = c6w_content.title) ∧
    (dictFind c6w_data "refined_methodology" = none →
      dget c6w_data "refined_methodology" c6w_content.methodology = c6w_content.methodology) ∧
    (dictFind c6w_data "refined_description" = none →
      dget c6w_data "refined_description" c6w_content.description = c6w_content.description) :=
  c6_amended c6w_idea c6w_response c6w_content c6w_critique c6w_data
    (some c6w_nc) (some c6w_det) rfl rfl rfl rfl

/-- C7 (confirmed).  When refinement extraction fails (no dict is
extracted), `improve` returns the prior content unchanged together with a
`RefinementDetails` record whose `refinement_reasoning` states the parse
failure ("Parsing failed - using original content"); the prior version is
never lost or altered.  (The sliceability hypotheses discharge the
`title[:50]`/`feedback_text[:500]` slices CPython performs on this
path.) -/
theorem c7_confirmed (idea : IdeaObject) (response : String) (content : IdeaContent)
    (critique : CritiqueMetrics)
    (h1 : idea.latest_content = some content) (h2 : idea.latest_critique = some critique)
    (h3 : ∀ d, extract_json response ≠ Json.obj d)
    (h4 : isSliceable content.title = true)
    (h5 : isSliceable critique.feedback_text = true) :
    RefinerAgent.improve idea response = Except.ok (some content, some
      { original_title := content.title
      , original_methodology := content.methodology
      , critique_feedback := (pySlice 500 critique.feedback_text).getD Json.null
      , critique_score := critique.average_score
      , refinement_reasoning := Json.str "Parsing failed - using original content"
      , changes_made := Json.str "No changes (parsing error)" }) := by
  obtain ⟨t, ht⟩ := sliceable_some 50 h4
  obtain ⟨fb, hfb⟩ := sliceable_some 500 h5
  unfold RefinerAgent.improve
  rw [h1, h2]
  dsimp only
  unfold RefinerAgent.improveCore
  rw [ht]
  dsimp only
  cases hex : extract_json response
  case obj d => exact absurd hex (h3 d)
  all_goals (rw [hfb]; rfl)

def c7w_content : IdeaContent := { title := Json.str "T7", methodology := Json.str "M7" }

def c7w_critique : CritiqueMetrics :=
  { novelty_score := 2, feasibility_score := 3, specificity_score := 0, impact_score := 0
  , average_score := mkRat 5 2, feedback_text := Json.str "F7", raw_response := none }

def c7w_idea : IdeaObject :=
  { idea_id := "c7w"
  , evolution_history :=
      [{ iteration := 0, role := "draft", content := some c7w_content, critique := some c7w_critique }] }

/-- Witness for C7 at a concrete unparseable response. -/
theorem c7_confirmed_witness :
    RefinerAgent.improve c7w_idea "zzz" = Except.ok (some c7w_content, some
      { original_title := c7w_content.title
      , original_methodology := c7w_content.methodology
      , critique_feedback := (pySlice 500 c7w_critique.feedback_text).getD Json.null
      , critique_score := c7w_critique.average_score
      , refinement_reasoning := Json.str "Parsing failed - using original content"
      , changes_made := Json.str "No changes (parsing error)" }) :=
  c7_confirmed c7w_idea "zzz" c7w_content c7w_critique rfl rfl
    (fun d hd => by
      rw [show extract_json "zzz" = Json.null from rfl] at hd
      exact Json.noConfusion hd)
    rfl rfl

/-! ## Loop lemmas (C5/C10) -/

theorem refinePhase_status (o : IdeaObject → String) (n : Nat) :
    ∀ (l out : List IdeaObject), refinePhase o n l = .ok out →
      (∀ i ∈ l, i.status = "active") → ∀ j ∈ out, j.status = "active"
  | [], out, h, _ => by
    simp only [refinePhase, Except.ok.injEq] at h
    subst h
    intro j hj
    exact absurd hj (List.not_mem_nil j)
  | i :: rest, out, h, hact => by
    simp only [refinePhase] at h
    cases hstep : refineStep o n i with
    | error e => rw [hstep] at h; exact Except.noConfusion h
    | ok j0 =>
      rw [hstep] at h
      cases hrest : refinePhase o n rest with
      | error e => rw [hrest] at h; exact Except.noConfusion h
      | ok js =>
        rw [hrest] at h
        simp only [Except.ok.injEq] at h
        subst h
        intro j hj
        rcases List.mem_cons.mp hj with rfl | hj2
        · obtain ⟨nc, det, _, hstat, _⟩ := refineStep_spec hstep
          rw [hstat]
          exact hact i (List.mem_cons_self i rest)
        · exact refinePhase_status o n rest js hrest
            (fun k hk => hact k (List.mem_cons_of_mem i hk)) j hj2

theorem filterPhase_spec (st dt : ℚ) :
    ∀ (pairs : List (IdeaObject × CritiqueMetrics)) alls accs rejs needs,
      filterPhase st dt pairs = .ok (alls, accs, rejs, needs) →
      (∀ p ∈ pairs, p.1.status = "active") →
      (∀ i ∈ accs, i.status = "accepted") ∧
      (∀ i ∈ rejs, i.status = "rejected") ∧
      (∀ i ∈ needs, i.status = "active") ∧
      (∀ i ∈ alls, i.status = "accepted" ∨ i.status = "rejected" ∨ i.status = "active")
  | [], alls, accs, rejs, needs, h, _ => by
    simp only [filterPhase, Except.ok.injEq, Prod.mk.injEq] at h
    obtain ⟨h1, h2, h3, h4⟩ := h
    subst h1; subst h2; subst h3; subst h4
    exact ⟨fun i hi => absurd hi (List.not_mem_nil i), fun i hi => absurd hi (List.not_mem_nil i),
      fun i hi => absurd hi (List.not_mem_nil i), fun i hi => absurd hi (List.not_mem_nil i)⟩
  | (i0, review) :: rest, alls, accs, rejs, needs, h, hact => by
    simp only [filterPhase] at h
    cases hlc : (attachCritique i0 review).latest_content with
    | none => rw [hlc] at h; exact Except.noConfusion h
    | some c =>
      rw [hlc] at h
      dsimp only at h
      cases hsl : pySlice 30 c.title with
      | none => rw [hsl] at h; exact Except.noConfusion h
      | some t =>
        rw [hsl] at h
        dsimp only at h
        cases hrest : filterPhase st dt rest with
        | error e => rw [hrest] at h; exact Except.noConfusion h
        | ok quad =>
          obtain ⟨alls', accs', rejs', needs'⟩ := quad
          rw [hrest] at h
          dsimp only at h
          have ihall := filterPhase_spec st dt rest alls' accs' rejs' needs' hrest
            (fun p hp => hact p (List.mem_cons_of_mem _ hp))
          have hstat0 : i0.status = "active" := hact (i0, review) (List.mem_cons_self _ _)
          cases hcl : classifyScore review.average_score st dt with
          | accept =>
            rw [hcl] at h
            simp only [Except.ok.injEq, Prod.mk.injEq] at h
            obtain ⟨h1, h2, h3, h4⟩ := h
            subst h1; subst h2; subst h3; subst h4
            refine ⟨?_, ihall.2.1, ihall.2.2.1, ?_⟩
            · intro i hi
              rcases List.mem_cons.mp hi with rfl | hi2
              · rfl
              · exact ihall.1 i hi2
            · intro i hi
              rcases List.mem_cons.mp hi with rfl | hi2
              · exact Or.inl rfl
              · exact ihall.2.2.2 i hi2
          | drop =>
            rw [hcl] at h
            simp only [Except.ok.injEq, Prod.mk.injEq] at h
            obtain ⟨h1, h2, h3, h4⟩ := h
            subst h1; subst h2; subst h3; subst h4
            refine ⟨ihall.1, ?_, ihall.2.2.1, ?_⟩
            · intro i hi
              rcases List.mem_cons.mp hi with rfl | hi2
              · rfl
              · exact ihall.2.1 i hi2
            · intro i hi
              rcases List.mem_cons.mp hi with rfl | hi2
              · exact Or.inr (Or.inl rfl)
              · exact ihall.2.2.2 i hi2
          | refine =>
            rw [hcl] at h
            simp only [Except.ok.injEq, Prod.mk.injEq] at h
            obtain ⟨h1, h2, h3, h4⟩ := h
            subst h1; subst h2; subst h3; subst h4
            have hai : (attachCritique i0 review).status = "active" := by
              rw [attachCritique_status]; exact hstat0
            refine ⟨ihall.1, ihall.2.1, ?_, ?_⟩
            · intro i hi
              rcases List.mem_cons.mp hi with rfl | hi2
              · exact hai
              · exact ihall.2.2.1 i hi2
            · intro i hi
              rcases List.mem_cons.mp hi with rfl | hi2
              · exact Or.inr (Or.inr hai)
              · exact ihall.2.2.2 i hi2

theorem researchLoopAux_spec (criticO refO : IdeaObject → String) (st dt : ℚ) :
    ∀ (fuel idx : Nat) (ideas acc rej fin acc2 rej2 : List IdeaObject),
      researchLoopAux criticO refO st dt fuel idx ideas acc rej = .ok (fin, acc2, rej2) →
      (∀ i ∈ ideas, i.status = "active") →
      (∀ i ∈ acc, i.status = "accepted") →
      (∀ i ∈ rej, i.status = "rejected") →
      (∀ i ∈ acc2, i.status = "accepted") ∧
      (∀ i ∈ rej2, i.status = "rejected") ∧
      (∀ i ∈ fin, i.status = "accepted" ∨ i.status = "rejected" ∨ i.status = "active") := by
  intro fuel
  induction fuel with
  | zero =>
    intro idx ideas acc rej fin acc2 rej2 h hideas hacc hrej
    simp only [researchLoopAux, Except.ok.injEq, Prod.mk.injEq] at h
    obtain ⟨h1, h2, h3⟩ := h
    subst h1; subst h2; subst h3
    exact ⟨hacc, hrej, fun i hi => Or.inr (Or.inr (hideas i hi))⟩
  | succ fuel ih =>
    intro idx ideas acc rej fin acc2 rej2 h hideas hacc hrej
    simp only [researchLoopAux] at h
    by_cases hempty : ideas.isEmpty
    · rw [if_pos hempty] at h
      simp only [Except.ok.injEq, Prod.mk.injEq] at h
      obtain ⟨h1, h2, h3⟩ := h
      subst h1; subst h2; subst h3
      exact ⟨hacc, hrej, fun i hi => Or.inr (Or.inr (hideas i hi))⟩
    · rw [if_neg hempty] at h
      cases heval : evalIdeas criticO ideas with
      | error e => rw [heval] at h; exact Except.noConfusion h
      | ok critiques =>
        rw [heval] at h
        dsimp only at h
        cases hfil : filterPhase st dt (ideas.zip critiques) with
        | error e => rw [hfil] at h; exact Except.noConfusion h
        | ok quad =>
          obtain ⟨alls, newAcc, newRej, needs⟩ := quad
          rw [hfil] at h
          dsimp only at h
          have hpairs : ∀ p ∈ ideas.zip critiques, p.1.status = "active" := by
            intro p hp
            exact hideas p.1 (List.of_mem_zip hp).1
          have hfspec := filterPhase_spec st dt (ideas.zip critiques) alls newAcc newRej needs hfil hpairs
          have haccnew : ∀ i ∈ acc ++ newAcc, i.status = "accepted" := by
            intro i hi
            rcases List.mem_append.mp hi with hi2 | hi2
            · exact hacc i hi2
            · exact hfspec.1 i hi2
          have hrejnew : ∀ i ∈ rej ++ newRej, i.status = "rejected" := by
            intro i hi
            rcases List.mem_append.mp hi with hi2 | hi2
            · exact hrej i hi2
            · exact hfspec.2.1 i hi2
          by_cases hneeds : needs.isEmpty
          · rw [if_pos hneeds] at h
            simp only [Except.ok.injEq, Prod.mk.injEq] at h
            obtain ⟨h1, h2, h3⟩ := h
            subst h1; subst h2; subst h3
            exact ⟨haccnew, hrejnew, hfspec.2.2.2⟩
          · rw [if_neg hneeds] at h
            cases href : refinePhase refO idx needs with
            | error e => rw [href] at h; exact Except.noConfusion h
            | ok refined =>
              rw [href] at h
              dsimp only at h
              exact ih (idx + 1) refined (acc ++ newAcc) (rej ++ newRej) fin acc2 rej2 h
                (refinePhase_status refO idx needs refined href hfspec.2.2.1)
                haccnew hrejnew

/-- C10 (confirmed).  For every completed run starting from drafts (all
`active`, as the generator produces them), the persisted output contains
only ideas whose final status is `accepted` or `refined_best_effort`;
every idea classified `drop` (status `rejected`) is omitted from the
persisted output entirely — the run's rejected ideas are disjoint from the
saved list, and no entry records a rejection. -/
theorem c10_confirmed (config : List (String × Json)) (criticO refO : IdeaObject → String)
    (max_loops : Nat) (ideas out rej : List IdeaObject)
    (hactive : ∀ i ∈ ideas, i.status = "active")
    (hrun : research_loop config criticO refO max_loops ideas = .ok (out, rej)) :
    (∀ i ∈ out, i.status = "accepted" ∨ i.status = "refined_best_effort") ∧
    (∀ i ∈ rej, i.status = "rejected" ∧ i ∉ out) := by
  unfold research_loop at hrun
  dsimp only at hrun
  cases haux : researchLoopAux criticO refO (getThresholds config).1 (getThresholds config).2
      max_loops 0 ideas [] [] with
  | error e => rw [haux] at hrun; exact Except.noConfusion hrun
  | ok trip =>
    obtain ⟨fin, acc2, rej2⟩ := trip
    rw [haux] at hrun
    dsimp only at hrun
    simp only [Except.ok.injEq, Prod.mk.injEq] at hrun
    obtain ⟨hout, hrej⟩ := hrun
    subst hout; subst hrej
    have hspec := researchLoopAux_spec criticO refO (getThresholds config).1 (getThresholds config).2
      max_loops 0 ideas [] [] fin acc2 rej2 haux hactive
      (fun i hi => absurd hi (List.not_mem_nil i)) (fun i hi => absurd hi (List.not_mem_nil i))
    have houtstat : ∀ i ∈ acc2 ++ finalizeIdeas fin,
        i.status = "accepted" ∨ i.status = "refined_best_effort" := by
      intro i hi
      rcases List.mem_append.mp hi with hi2 | hi2
      · exact Or.inl (hspec.1 i hi2)
      · exact Or.inr (finalizeIdeas_status hi2)
    refine ⟨houtstat, fun i hi => ⟨hspec.2.1 i hi, fun hmem => ?_⟩⟩
    have h1 := hspec.2.1 i hi
    rcases houtstat i hmem with h2 | h2
    · rw [h1] at h2
      exact absurd h2 (by decide)
    · rw [h1] at h2
      exact absurd h2 (by decide)

def c10w_content : IdeaContent := { title := Json.str "T10", methodology := Json.str "M10" }

def c10w_idea : IdeaObject :=
  { idea_id := "c10"
  , evolution_history := [{ iteration := 0, role := "draft", content := some c10w_content }] }

def c10w_resp : String := "\x7b\"novelty_score\": 5\x7d"

def c10w_crit : CritiqueMetrics :=
  { novelty_score := 5, feasibility_score := 0, specificity_score := 0, impact_score := 0
  , average_score := 5, feedback_text := Json.str "No detailed feedback provided."
  , raw_response := some c10w_resp }

def c10w_final : IdeaObject :=
  { idea_id := "c10"
  , current_iteration := 0
  , status := "accepted"
  , evolution_history :=
      [{ iteration := 0, role := "draft", content := some c10w_content, critique := some c10w_crit }] }

/-- Witness for C10 at a concrete one-pass accepting run. -/
theorem c10_confirmed_witness :
    research_loop [] (fun _ => c10w_resp) (fun _ => "") 1 [c10w_idea] =
      Except.ok ([c10w_final], []) ∧
    (c10w_final.status = "accepted" ∨ c10w_final.status = "refined_best_effort") := by
  have hrun : research_loop [] (fun _ => c10w_resp) (fun _ => "") 1 [c10w_idea] =
      Except.ok ([c10w_final], []) := rfl
  refine ⟨hrun, ?_⟩
  refine (c10_confirmed [] (fun _ => c10w_resp) (fun _ => "") 1 [c10w_idea] [c10w_final] []
    ?_ hrun).1 c10w_final (by simp)
  intro i hi
  rw [List.mem_singleton] at hi
  subst hi
  rfl

/-- The well-formedness of an idea that the happy path of a pass
preserves: an `active` status, a latest content with a sliceable title
(so the printed `title[:30]`/`title[:50]` slices cannot raise), and a
sliceable feedback text on the latest critique when one is attached (so
`feedback_text[:500]` cannot raise). -/
def goodIdea (i : IdeaObject) : Prop :=
  i.status = "active" ∧
  (∃ c, i.latest_content = some c ∧ isSliceable c.title = true) ∧
  (∀ q, i.latest_critique = some q → isSliceable q.feedback_text = true)

theorem evalIdeas_good (criticO : IdeaObject → String) :
    ∀ l : List IdeaObject, (∀ i ∈ l, goodIdea i) →
      evalIdeas criticO l =
        .ok (l.map (fun i => CriticAgent.parse_critique_response (criticO i)))
  | [], _ => rfl
  | i :: rest, h => by
    obtain ⟨_, ⟨c, hc, hsl⟩, _⟩ := h i (List.mem_cons_self i rest)
    obtain ⟨t, ht⟩ := sliceable_some 50 hsl
    simp only [evalIdeas, criticStep]
    rw [hc]
    dsimp only
    rw [ht]
    dsimp only
    rw [evalIdeas_good criticO rest (fun j hj => h j (List.mem_cons_of_mem i hj))]
    dsimp only
    rw [List.map_cons]

theorem attach_good {i : IdeaObject} {r : CritiqueMetrics} (hi : goodIdea i)
    (hr : isSliceable r.feedback_text = true) : goodIdea (attachCritique i r) := by
  obtain ⟨hst, ⟨c, hc, hsl⟩, _⟩ := hi
  refine ⟨by rw [attachCritique_status]; exact hst, ⟨c, ?_, hsl⟩, ?_⟩
  · rw [attachCritique_latest_content]; exact hc
  · intro q hq
    rw [attachCritique_latest_critique i r (latest_content_getLast?_isSome hc)] at hq
    cases hq
    exact hr

theorem filterPhase_all_refine (st dt : ℚ) (criticO : IdeaObject → String) :
    ∀ l : List IdeaObject,
      (∀ i ∈ l, goodIdea i) →
      (∀ i ∈ l, classifyScore (CriticAgent.parse_critique_response (criticO i)).average_score st dt
        = Verdict.refine) →
      filterPhase st dt
          (l.zip (l.map (fun i => CriticAgent.parse_critique_response (criticO i)))) =
        .ok (l.map (fun i => attachCritique i (CriticAgent.parse_critique_response (criticO i))), [], [],
             l.map (fun i => attachCritique i (CriticAgent.parse_critique_response (criticO i))))
  | [], _, _ => rfl
  | i :: rest, h, hcl => by
    obtain ⟨_, ⟨c, hc, hsl⟩, _⟩ := h i (List.mem_cons_self i rest)
    obtain ⟨t, ht⟩ := sliceable_some 30 hsl
    have hlc : (attachCritique i (CriticAgent.parse_critique_response (criticO i))).latest_content
        = some c := by
      rw [attachCritique_latest_content]; exact hc
    rw [List.map_cons, List.zip_cons_cons]
    simp only [filterPhase]
    rw [hlc]
    dsimp only
    rw [ht]
    dsimp only
    rw [filterPhase_all_refine st dt criticO rest
      (fun j hj => h j (List.mem_cons_of_mem i hj))
      (fun j hj => hcl j (List.mem_cons_of_mem i hj))]
    dsimp only
    rw [hcl i (List.mem_cons_self i rest)]
    dsimp only [List.map_cons]

theorem refineStep_good {refO : IdeaObject → String}
    (Href : ∀ (n : Nat) (i : IdeaObject), goodIdea i →
      ∃ j, refineStep refO n i = .ok j ∧
        ∃ c, j.latest_content = some c ∧ isSliceable c.title = true)
    (n : Nat) {i : IdeaObject} (hi : goodIdea i) :
    ∃ j, refineStep refO n i = .ok j ∧ goodIdea j ∧
      j.evolution_history.length = i.evolution_history.length + 1 := by
  obtain ⟨j, hok, c, hcont, hsl⟩ := Href n i hi
  obtain ⟨nc, det, _, hstat, _, hlen, _, hnocrit⟩ := refineStep_spec hok
  refine ⟨j, hok, ⟨?_, ⟨c, hcont, hsl⟩, ?_⟩, hlen⟩
  · rw [hstat]; exact hi.1
  · intro q hq
    rw [hnocrit] at hq
    exact Option.noConfusion hq

theorem refinePhase_good {refO : IdeaObject → String}
    (Href : ∀ (n : Nat) (i : IdeaObject), goodIdea i →
      ∃ j, refineStep refO n i = .ok j ∧
        ∃ c, j.latest_content = some c ∧ isSliceable c.title = true)
    (n : Nat) :
    ∀ (l : List IdeaObject) (M : Nat),
      (∀ i ∈ l, goodIdea i ∧ i.evolution_history.length = M) →
      ∃ out, refinePhase refO n l = .ok out ∧ out.length = l.length ∧
        ∀ j ∈ out, goodIdea j ∧ j.evolution_history.length = M + 1
  | [], M, _ => ⟨[], rfl, rfl, fun j hj => absurd hj (List.not_mem_nil j)⟩
  | i :: rest, M, h => by
    obtain ⟨hi, hiM⟩ := h i (List.mem_cons_self i rest)
    obtain ⟨j, hok, hgood, hlen⟩ := refineStep_good Href n hi
    obtain ⟨out, hout, houtlen, houtmem⟩ :=
      refinePhase_good Href n rest M (fun k hk => h k (List.mem_cons_of_mem i hk))
    refine ⟨j :: out, ?_, ?_, ?_⟩
    · simp only [refinePhase]
      rw [hok]
      dsimp only
      rw [hout]
    · simp only [List.length_cons, houtlen]
    · intro k hk
      rcases List.mem_cons.mp hk with rfl | hk2
      · exact ⟨hgood, by rw [hlen, hiM]⟩
      · exact houtmem k hk2

theorem c5_aux {criticO refO : IdeaObject → String} {st dt : ℚ}
    (Hcrit : ∀ i, goodIdea i →
      dt ≤ (CriticAgent.parse_critique_response (criticO i)).average_score ∧
      (CriticAgent.parse_critique_response (criticO i)).average_score < st)
    (Hfb : ∀ i, goodIdea i →
      isSliceable (CriticAgent.parse_critique_response (criticO i)).feedback_text = true)
    (Href : ∀ (n : Nat) (i : IdeaObject), goodIdea i →
      ∃ j, refineStep refO n i = .ok j ∧
        ∃ c, j.latest_content = some c ∧ isSliceable c.title = true) :
    ∀ (fuel idx : Nat) (l acc rej : List IdeaObject) (M : Nat),
      (∀ i ∈ l, goodIdea i ∧ i.evolution_history.length = M) →
      ∃ fin, researchLoopAux criticO refO st dt fuel idx l acc rej = .ok (fin, acc, rej) ∧
        fin.length = l.length ∧
        ∀ j ∈ fin, goodIdea j ∧ j.evolution_history.length = M + fuel := by
  intro fuel
  induction fuel with
  | zero =>
    intro idx l acc rej M h
    exact ⟨l, rfl, rfl, fun j hj => ⟨(h j hj).1, (h j hj).2.trans (Nat.add_zero M).symm⟩⟩
  | succ fuel ih =>
    intro idx l acc rej M h
    cases l with
    | nil =>
      exact ⟨[], rfl, rfl, fun j hj => absurd hj (List.not_mem_nil j)⟩
    | cons i0 rest =>
      have hgood : ∀ i ∈ i0 :: rest, goodIdea i := fun i hi => (h i hi).1
      have hcl : ∀ i ∈ i0 :: rest,
          classifyScore (CriticAgent.parse_critique_response (criticO i)).average_score st dt
            = Verdict.refine := by
        intro i hi
        obtain ⟨h1, h2⟩ := Hcrit i (hgood i hi)
        exact classifyScore_refine h1 h2
      have hneeds : ∀ i ∈ (i0 :: rest).map
          (fun i => attachCritique i (CriticAgent.parse_critique_response (criticO i))),
          goodIdea i ∧ i.evolution_history.length = M := by
        intro k hk
        obtain ⟨i, hi, rfl⟩ := List.mem_map.mp hk
        exact ⟨attach_good (hgood i hi) (Hfb i (hgood i hi)),
          by rw [attachCritique_length]; exact (h i hi).2⟩
      obtain ⟨refined, hrefined, hreflen, hrefmem⟩ :=
        refinePhase_good Href idx
          ((i0 :: rest).map
            (fun i => attachCritique i (CriticAgent.parse_critique_response (criticO i)))) M hneeds
      obtain ⟨fin, hfin, hfinlen, hfinmem⟩ :=
        ih (idx + 1) refined acc rej (M + 1) hrefmem
      refine ⟨fin, ?_, ?_, ?_⟩
      · simp only [researchLoopAux]
        rw [if_neg (by simp)]
        rw [evalIdeas_good criticO (i0 :: rest) hgood]
        dsimp only
        rw [filterPhase_all_refine st dt criticO (i0 :: rest) hgood hcl]
        dsimp only
        rw [if_neg (by simp)]
        rw [hrefined]
        dsimp only
        simp only [List.append_nil]
        exact hfin
      · rw [hfinlen, hreflen, List.length_map]
      · intro j hj
        refine ⟨(hfinmem j hj).1, ?_⟩
        rw [(hfinmem j hj).2]
        omega

/-- C5 (confirmed).  An idea starting `active` with exactly one (draft)
snapshot, in a run whose critic classifies every critique as `refine` on
every pass (average in `[drop_threshold, score_threshold)`), ends the run
with status `refined_best_effort` and an evolution history of exactly
`max_loops + 1` snapshots — one draft plus one refined snapshot per pass —
and is persisted (the rejected list stays empty).  The `goodIdea` /
`Href` hypotheses record that no print-slice or refinement step raises, so
the run completes. -/
theorem c5_confirmed (config : List (String × Json)) (criticO refO : IdeaObject → String)
    (max_loops : Nat) (ideas : List IdeaObject)
    (Hcrit : ∀ i, goodIdea i →
      (getThresholds config).2 ≤ (CriticAgent.parse_critique_response (criticO i)).average_score ∧
      (CriticAgent.parse_critique_response (criticO i)).average_score < (getThresholds config).1)
    (Hfb : ∀ i, goodIdea i →
      isSliceable (CriticAgent.parse_critique_response (criticO i)).feedback_text = true)
    (Href : ∀ (n : Nat) (i : IdeaObject), goodIdea i →
      ∃ j, refineStep refO n i = .ok j ∧
        ∃ c, j.latest_content = some c ∧ isSliceable c.title = true)
    (Hinit : ∀ i ∈ ideas, goodIdea i ∧ i.evolution_history.length = 1) :
    ∃ out, research_loop config criticO refO max_loops ideas = Except.ok (out, []) ∧
      out.length = ideas.length ∧
      ∀ j ∈ out, j.status = "refined_best_effort" ∧
        j.evolution_history.length = max_loops + 1 := by
  obtain ⟨fin, hfin, hlen, hmem⟩ :=
    c5_aux Hcrit Hfb Href max_loops 0 ideas [] [] 1 Hinit
  have hfinactive : ∀ i ∈ fin, i.status = "active" := fun i hi => (hmem i hi).1.1
  refine ⟨finalizeIdeas fin, ?_, ?_, ?_⟩
  · unfold research_loop
    dsimp only
    rw [hfin]
    dsimp only [List.nil_append]
  · rw [finalizeIdeas_of_all_active hfinactive, List.length_map, hlen]
  · intro j hj
    rw [finalizeIdeas_of_all_active hfinactive] at hj
    obtain ⟨i, hi, rfl⟩ := List.mem_map.mp hj
    refine ⟨rfl, ?_⟩
    show i.evolution_history.length = max_loops + 1
    rw [(hmem i hi).2]
    omega

def c5w_content : IdeaContent := { title := Json.str "T5", methodology := Json.str "M5" }

def c5w_idea : IdeaObject :=
  { idea_id := "c5"
  , evolution_history := [{ iteration := 0, role := "draft", content := some c5w_content }] }

def c5w_resp : String := "\x7b\"novelty_score\": 2, \"feasibility_score\": 3\x7d"

def c5w_crit : CritiqueMetrics :=
  { novelty_score := 2, feasibility_score := 3, specificity_score := 0, impact_score := 0
  , average_score := mkRat 5 2, feedback_text := Json.str "No detailed feedback provided."
  , raw_response := some c5w_resp }

def c5w_det : RefinementDetails :=
  { original_title := Json.str "T5"
  , original_methodology := Json.str "M5"
  , critique_feedback := Json.str "No detailed feedback provided."
  , critique_score := mkRat 5 2
  , refinement_reasoning := Json.str "Parsing failed - using original content"
  , changes_made := Json.str "No changes (parsing error)" }

def c5w_final : IdeaObject :=
  { idea_id := "c5"
  , current_iteration := 1
  , status := "refined_best_effort"
  , evolution_history :=
      [{ iteration := 0, role := "draft", content := some c5w_content, critique := some c5w_crit }
      ,{ iteration := 1, role := "refined", content := some c5w_content
       , refinement_details := some c5w_det }] }

/-- The refinement-success hypothesis of C5 holds for the oracle that
returns an unparseable response: `improve` then takes the
content-preserving fallback path. -/
theorem c5w_href : ∀ (n : Nat) (i : IdeaObject), goodIdea i →
    ∃ j, refineStep (fun _ => "") n i = .ok j ∧
      ∃ c, j.latest_content = some c ∧ isSliceable c.title = true := by
  intro n i hi
  obtain ⟨hst, ⟨c, hc, hsl⟩, hq⟩ := hi
  cases hcr : i.latest_critique with
  | none =>
    have himp : RefinerAgent.improve i "" = .ok (some c, none) := by
      unfold RefinerAgent.improve
      rw [hc, hcr]
    refine ⟨_, by unfold refineStep; rw [himp], c, ?_, hsl⟩
    unfold IdeaObject.latest_content
    rw [show ({ i with
        evolution_history := i.evolution_history ++
          [{ iteration := n + 1, role := "refined", content := some c
           , critique := none, refinement_details := none }]
        current_iteration := i.current_iteration + 1 } : IdeaObject).evolution_history =
      i.evolution_history ++
        [{ iteration := n + 1, role := "refined", content := some c
         , critique := none, refinement_details := none }] from rfl]
    rw [List.getLast?_concat]
  | some q =>
    have hfb := hq q hcr
    obtain ⟨fb, hfbs⟩ := sliceable_some 500 hfb
    obtain ⟨t, ht⟩ := sliceable_some 50 hsl
    have himp : RefinerAgent.improve i "" = .ok (some c, some
        { original_title := c.title
        , original_methodology := c.methodology
        , critique_feedback := fb
        , critique_score := q.average_score
        , refinement_reasoning := Json.str "Parsing failed - using original content"
        , changes_made := Json.str "No changes (parsing error)" }) := by
      unfold RefinerAgent.improve
      rw [hc, hcr]
      dsimp only
      unfold RefinerAgent.improveCore
      rw [ht]
      dsimp only
      rw [show extract_json "" = Json.null from rfl]
      dsimp only
      rw [hfbs]
    refine ⟨_, by unfold refineStep; rw [himp], c, ?_, hsl⟩
    unfold IdeaObject.latest_content
    rw [show ({ i with
        evolution_history := i.evolution_history ++
          [{ iteration := n + 1, role := "refined", content := some c
           , critique := none
           , refinement_details := some
              { original_title := c.title
              , original_methodology := c.methodology
              , critique_feedback := fb
              , critique_score := q.average_score
              , refinement_reasoning := Json.str "Parsing failed - using original content"
              , changes_made := Json.str "No changes (parsing error)" } }]
        current_iteration := i.current_iteration + 1 } : IdeaObject).evolution_history =
      i.evolution_history ++
        [{ iteration := n + 1, role := "refined", content := some c
         , critique := none
         , refinement_details := some
            { original_title := c.title
            , original_methodology := c.methodology
            , critique_feedback := fb
            , critique_score := q.average_score
            , refinement_reasoning := Json.str "Parsing failed - using original content"
            , changes_made := Json.str "No changes (parsing error)" } }] from rfl]
    rw [List.getLast?_concat]

/-- Witness for C5 at a concrete single-idea, single-pass run whose only
critique scores 2.5 against thresholds (3, 2). -/
theorem c5_confirmed_witness :
    research_loop [] (fun _ => c5w_resp) (fun _ => "") 1 [c5w_idea] =
      Except.ok ([c5w_final], []) ∧
    c5w_final.status = "refined_best_effort" ∧
    c5w_final.evolution_history.length = 1 + 1 := by
  have hrun : research_loop [] (fun _ => c5w_resp) (fun _ => "") 1 [c5w_idea] =
      Except.ok ([c5w_final], []) := rfl
  have havg : (CriticAgent.parse_critique_response c5w_resp).average_score = mkRat 5 2 := rfl
  have hbounds : (2 : ℚ) ≤ mkRat 5 2 ∧ (mkRat 5 2 : ℚ) < 3 := by
    rw [mkRat_eq_div_cast]
    norm_num
  obtain ⟨out, hout, hlen, hmem⟩ :=
    c5_confirmed [] (fun _ => c5w_resp) (fun _ => "") 1 [c5w_idea]
      (fun i _ => ⟨by show (2 : ℚ) ≤ _; rw [havg]; exact hbounds.1,
                   by show _ < (3 : ℚ); rw [havg]; exact hbounds.2⟩)
      (fun i _ => rfl)
      c5w_href
      (by
        intro i hi
        rw [List.mem_singleton] at hi
        subst hi
        refine ⟨⟨rfl, ⟨c5w_content, rfl, rfl⟩, ?_⟩, rfl⟩
        intro q hq
        exact Option.noConfusion hq)
  rw [hrun] at hout
  simp only [Except.ok.injEq, Prod.mk.injEq] at hout
  obtain ⟨hout1, _⟩ := hout
  have hf : c5w_final ∈ out := by
    rw [← hout1]
    simp
  exact ⟨hrun, (hmem c5w_final hf).1, (hmem c5w_final hf).2⟩
